import Mathlib

/-! Verification of `tencentcloud/data_source_clb_instances.go`.

A shallow embedding of the `clbInstancesDataSource.Read` handler and the
properties of its request builder, retrying fetcher and response mapper.

Conventions of the embedding.

* Go pointers to strings (`*string`) are plain strings: the handler
  dereferences them without a nil check, so a nil pointer is outside the
  domain of the embedding.
* A Go `map[string]V` is an association list; the order of the list stands
  for the (unspecified) iteration order of the Go runtime.
* `time.Duration` is a natural number of nanoseconds.
* Collaborators that live outside this file (the client resolver, the SDK
  client, the zone lookup, the table of retryable codes, the listing API and
  the wall clock behind the backoff policy) are fields of `Env`.
-/

set_option autoImplicit false

namespace Tencentcloud

/-! ## Values of the plugin framework -/

/-- Framework string value (`types.String`): null, unknown or a known string. -/
inductive TfString where
  | null
  | unknown
  | known (value : String)
  deriving DecidableEq, Repr

/-- Method `IsNull` of `types.String`. -/
def TfString.IsNull : TfString → Bool
  | TfString.null => true
  | _ => false

/-- Method `IsUnknown` of `types.String`. -/
def TfString.IsUnknown : TfString → Bool
  | TfString.unknown => true
  | _ => false

/-- Method `ValueString` of `types.String`: the known value, else the empty string. -/
def TfString.ValueString : TfString → String
  | TfString.known s => s
  | _ => ""

/-- Framework map value (`types.Map` with string elements): null, unknown, or
known with its elements. -/
inductive TfMap where
  | null
  | unknown
  | known (elements : List (String × TfString))
  deriving DecidableEq, Repr

/-- Method `IsNull` of `types.Map`. -/
def TfMap.IsNull : TfMap → Bool
  | TfMap.null => true
  | _ => false

/-- Method `IsUnknown` of `types.Map`. -/
def TfMap.IsUnknown : TfMap → Bool
  | TfMap.unknown => true
  | _ => false

/-- Method `Elements` of `types.Map`. -/
def TfMap.Elements : TfMap → List (String × TfString)
  | TfMap.known es => es
  | _ => []

/-- Severity of a diagnostic. -/
inductive Severity where
  | error
  | warning
  deriving DecidableEq, Repr

/-- One diagnostic of the framework (`diag.Diagnostic`). -/
structure Diagnostic where
  severity : Severity
  summary : String
  detail : String
  deriving DecidableEq, Repr

/-- Collection `diag.Diagnostics`. -/
abbrev Diagnostics := List Diagnostic

/-- Method `HasError` of `diag.Diagnostics`. -/
def HasError (ds : Diagnostics) : Bool :=
  ds.any (fun d => decide (d.severity = Severity.error))

/-- Method `Append` of `diag.Diagnostics`: adds each diagnostic that is not
already contained. -/
def Append (ds : Diagnostics) (more : Diagnostics) : Diagnostics :=
  more.foldl (fun acc d => if acc.contains d then acc else acc ++ [d]) ds

/-- Method `AddError` of `diag.Diagnostics`. -/
def AddError (ds : Diagnostics) (summary detail : String) : Diagnostics :=
  Append ds [{ severity := Severity.error, summary := summary, detail := detail }]

/-- The diagnostic `ElementsAs` reports when an element cannot be stored in a
Go string (the text stands for the framework's own message). -/
def valueConversionError : Diagnostic :=
  { severity := Severity.error
    summary := "Value Conversion Error"
    detail := "An unexpected error was encountered trying to convert value: unhandled null or unknown value" }

/-- Is the element a known string. -/
def TfString.isKnown : TfString → Bool
  | TfString.known _ => true
  | _ => false

/-- Method `ElementsAs(ctx, &inputTags, false)` of `types.Map` with a
`map[string]string` target: every element must be a known string (null and
unknown elements are not handled); returns the diagnostics and the Go map. -/
def ElementsAs (m : TfMap) : Diagnostics × List (String × String) :=
  if m.Elements.all (fun kv => kv.2.isKnown) then
    ([], m.Elements.map (fun kv => (kv.1, kv.2.ValueString)))
  else
    ([valueConversionError], [])

/-! ## Go maps -/

/-- Assignment `m[k] = v` on a Go map: replaces the value of an existing key,
adds the key otherwise. -/
def mapSet {V : Type} : List (String × V) → String → V → List (String × V)
  | [], k, v => [(k, v)]
  | (k0, v0) :: rest, k, v =>
    if k0 = k then (k, v) :: rest else (k0, v0) :: mapSet rest k v

/-- Index expression `m[k]` on a Go map. -/
def mapGet {V : Type} : List (String × V) → String → Option V
  | [], _ => none
  | (k0, v0) :: rest, k => if k0 = k then some v0 else mapGet rest k

/-! ## SDK types -/

/-- Go `error` values the handler distinguishes: the SDK error type
`*errors.TencentCloudSDKError` and everything else. -/
inductive GoError where
  | sdk (code message requestId : String)
  | other (text : String)
  deriving DecidableEq, Repr

/-- Method `Error` of an error value. For the SDK error the text names the
code and the message, and the request id only when it is not empty. -/
def GoError.Error : GoError → String
  | GoError.sdk code message requestId =>
    if requestId = "" then
      "[TencentCloudSDKError] Code=" ++ code ++ ", Message=" ++ message
    else
      "[TencentCloudSDKError] Code=" ++ code ++ ", Message=" ++ message
        ++ ", RequestId=" ++ requestId
  | GoError.other text => text

/-- SDK type `clb.Filter`. -/
structure Filter where
  Name : String
  Values : List String
  deriving DecidableEq, Repr

/-- SDK type `clb.DescribeLoadBalancersRequest`; every field is optional and
left unset by the constructor. -/
structure DescribeLoadBalancersRequest where
  LoadBalancerIds : Option (List String)
  LoadBalancerType : Option String
  Forward : Option Int
  LoadBalancerName : Option String
  Domain : Option String
  LoadBalancerVips : Option (List String)
  BackendPublicIps : Option (List String)
  BackendPrivateIps : Option (List String)
  Offset : Option Int
  Limit : Option Int
  OrderBy : Option String
  OrderType : Option Int
  SearchKey : Option String
  ProjectId : Option Int
  WithRs : Option Int
  VpcId : Option String
  SecurityGroup : Option String
  MasterZone : Option String
  Filters : Option (List Filter)
  deriving DecidableEq, Repr

/-- SDK constructor `clb.NewDescribeLoadBalancersRequest`. -/
def NewDescribeLoadBalancersRequest : DescribeLoadBalancersRequest :=
  { LoadBalancerIds := none, LoadBalancerType := none, Forward := none
    LoadBalancerName := none, Domain := none, LoadBalancerVips := none
    BackendPublicIps := none, BackendPrivateIps := none, Offset := none
    Limit := none, OrderBy := none, OrderType := none, SearchKey := none
    ProjectId := none, WithRs := none, VpcId := none, SecurityGroup := none
    MasterZone := none, Filters := none }

/-- SDK type `clb.TagInfo`. -/
structure TagInfo where
  TagKey : String
  TagValue : String
  deriving DecidableEq, Repr

/-- SDK type `clb.LoadBalancer`, with the fields the handler reads. -/
structure LoadBalancer where
  LoadBalancerId : String
  LoadBalancerName : String
  Tags : List TagInfo
  deriving DecidableEq, Repr

/-- Handle of an SDK client (`*clb.Client`). -/
structure Client where
  handle : Nat
  deriving DecidableEq, Repr

/-- SDK type `common.Credential`. -/
structure Credential where
  SecretId : String
  SecretKey : String
  deriving DecidableEq, Repr

/-! ## Types of the data source -/

/-- Block `client_config` (type `clientConfigWithZone`, declared elsewhere in
the provider), with the attributes of the schema. -/
structure clientConfigWithZone where
  Region : TfString
  Zone : TfString
  SecretId : TfString
  SecretKey : TfString
  deriving DecidableEq, Repr

/-- Zero value `&clientConfigWithZone{}`: every attribute is null. -/
def clientConfigWithZone.zero : clientConfigWithZone :=
  { Region := TfString.null, Zone := TfString.null
    SecretId := TfString.null, SecretKey := TfString.null }

/-- Resolved client configuration returned by `initNewClient`. -/
structure clientConfig where
  credential : Credential
  region : String
  deriving DecidableEq, Repr

/-- Struct `clbLoadBalancersDetail`. -/
structure clbLoadBalancersDetail where
  Id : TfString
  Name : TfString
  Tags : TfMap
  deriving DecidableEq, Repr

/-- Struct `clbInstancesDataSourceModel`. -/
structure clbInstancesDataSourceModel where
  ClientConfig : Option clientConfigWithZone
  Id : TfString
  Name : TfString
  Tags : TfMap
  LoadBalancers : List clbLoadBalancersDetail
  deriving DecidableEq, Repr

/-- Struct `clbInstancesDataSource`: the stored client handle. -/
structure clbInstancesDataSource where
  client : Client
  deriving DecidableEq, Repr

/-- Outcome of `req.Config.Get(ctx, &plan)`: the diagnostics and the decoded
plan. -/
structure Config where
  diags : Diagnostics
  plan : clbInstancesDataSourceModel
  deriving DecidableEq, Repr

/-- Framework type `datasource.ReadRequest`. -/
structure ReadRequest where
  Config : Config
  deriving DecidableEq, Repr

/-- Framework type `datasource.ReadResponse`: the state (absent until set)
and the diagnostics. -/
structure ReadResponse where
  State : Option clbInstancesDataSourceModel
  Diagnostics : Diagnostics
  deriving DecidableEq, Repr

/-! ## The backoff library -/

/-- One second as a `time.Duration`. -/
def Second : Nat := 1000000000

/-- One minute as a `time.Duration`. -/
def Minute : Nat := 60 * Second

/-- Library type `backoff.ExponentialBackOff`, with the field the handler
sets. -/
structure ExponentialBackOff where
  MaxElapsedTime : Nat
  deriving DecidableEq, Repr

/-- Library constructor `backoff.NewExponentialBackOff`: the default budget
is fifteen minutes. -/
def NewExponentialBackOff : ExponentialBackOff :=
  { MaxElapsedTime := 15 * Minute }

/-- Error returned by a retried operation: a plain error, or one wrapped by
`backoff.Permanent`. -/
inductive OperationError where
  | plain (err : GoError)
  | permanent (err : GoError)
  deriving DecidableEq, Repr

/-- Library function `backoff.Permanent`. -/
def Permanent (err : GoError) : OperationError := OperationError.permanent err

/-- What a run of `backoff.Retry` did: the error it returned (if any), the
final value of the variables the operation mutates, how many times it called
the operation and the delays it slept. -/
structure RetryRun (S : Type) where
  err : Option GoError
  final : S
  attempts : Nat
  slept : List Nat

/-- Modelled from the spec: the retry loop `backoff.Retry` of the library
`github.com/cenkalti/backoff/v4`, whose source is not part of the repository
(section 4.3: a permanent error aborts the loop immediately and is surfaced,
a retryable error is retried under the backoff policy, and once the
elapsed-time budget is exhausted the last error is surfaced). The operation
is called; on `nil` the loop returns `nil`; on a permanent error it returns
the wrapped error at once; otherwise the policy is asked for the next delay:
when it answers `Stop` (the elapsed-time budget is used up) the loop returns
the error just observed, else it sleeps for the delay and calls the
operation again. `granted` lists the delays the policy still grants before
it answers `Stop`, and `attempt` numbers the calls. -/
def Retry {S : Type} (operation : Nat → S → Option OperationError × S) :
    List Nat → Nat → S → RetryRun S
  | granted, attempt, s =>
    match operation attempt s with
    | (none, s1) => { err := none, final := s1, attempts := 1, slept := [] }
    | (some (OperationError.permanent e), s1) =>
      { err := some e, final := s1, attempts := 1, slept := [] }
    | (some (OperationError.plain e), s1) =>
      match granted with
      | [] => { err := some e, final := s1, attempts := 1, slept := [] }
      | delay :: rest =>
        let run := Retry operation rest (attempt + 1) s1
        { run with attempts := run.attempts + 1, slept := delay :: run.slept }

/-! ## Collaborators -/

/-- The collaborators of `Read` that are defined outside this file. -/
structure Env where
  /-- Stands for `initNewClient(&d.client.Client, plan.ClientConfig.getClientConfig())`
  (both helpers are declared elsewhere in the provider): whether a new client
  is needed, and the resolved configuration. -/
  initNewClient : Client → clientConfigWithZone → Bool × clientConfig
  /-- SDK constructor `clb.NewClient(credential, region, profile)`: the
  returned handle and the returned error. -/
  NewClient : Credential → String → Client × Option GoError
  /-- Helper `getZoneId(&d.client.Client, zone)`, declared elsewhere in the
  provider. -/
  getZoneId : Client → String → Except GoError String
  /-- Helper `isRetryableErrCode`, declared elsewhere in the provider. -/
  isRetryableErrCode : String → Bool
  /-- Listing API `client.DescribeLoadBalancers(request)`; the last argument
  numbers the calls, so that the answer may change from call to call. -/
  DescribeLoadBalancers :
    Client → DescribeLoadBalancersRequest → Nat → Except GoError (List LoadBalancer)
  /-- Wall clock: the time that passes from the start of the listing call
  with the given number (the reset of the backoff policy for the first call,
  the end of the preceding wait for a later one) until the policy is
  consulted about its error. -/
  callDuration : Nat → Nat
  /-- Random jitter: the randomized interval the backoff policy draws when it
  is consulted for the given time (counted from zero). -/
  nextInterval : Nat → Nat
  /-- The policy draws positive intervals (between half and one and a half
  times its current interval, which starts at half a second). -/
  nextInterval_pos : ∀ k, 0 < nextInterval k

/-! ## The elapsed-time budget -/

/-- Modelled from the spec: method `NextBackOff` of the library type
`backoff.ExponentialBackOff`, whose source is not part of the repository
(section 4.3: the retries are capped by a budget of total elapsed time and
the last error is surfaced once it is exhausted). Given the elapsed time
read from the clock and the randomized interval drawn, it answers `Stop`
(here `none`) when a budget is set and `elapsed + next > MaxElapsedTime`,
and the interval otherwise. -/
def NextBackOff (b : ExponentialBackOff) (elapsed next : Nat) : Option Nat :=
  if b.MaxElapsedTime ≠ 0 ∧ elapsed + next > b.MaxElapsedTime then none else some next

/-- The elapsed time (`GetElapsedTime`) the policy reads when it is consulted
after the listing call with the given number, in a run that slept every
interval drawn before: the durations of the calls so far plus the waits
between them. -/
def elapsedAt (env : Env) : Nat → Nat
  | 0 => env.callDuration 0
  | k + 1 => elapsedAt env k + env.nextInterval k + env.callDuration (k + 1)

/-- The delays the policy grants from its consultation number `k` on, until
it answers `Stop`. The first argument bounds the number of consultations:
with a budget set (`MaxElapsedTime ≠ 0`, as `Read` sets it) a bound above
`MaxElapsedTime` is never used up, because every wait advances the clock by
at least a nanosecond (`grantedBackOffs_spec`); a policy without budget
never stops and is not described by this definition. -/
def grantedFrom (env : Env) (b : ExponentialBackOff) : Nat → Nat → List Nat
  | 0, _ => []
  | bound + 1, k =>
    match NextBackOff b (elapsedAt env k) (env.nextInterval k) with
    | none => []
    | some next => next :: grantedFrom env b bound (k + 1)

/-- The delays the policy grants during one run of `backoff.Retry`, in
order, before it answers `Stop`. -/
def grantedBackOffs (env : Env) (b : ExponentialBackOff) : List Nat :=
  grantedFrom env b (b.MaxElapsedTime + 1) 0

/-! ## The handler -/

/-- Body of the loop of lines 185-191: the filter of one tag-map entry. -/
def filterDetail (inputKey inputValue : String) : Filter :=
  { Name := "tag:" ++ inputKey, Values := [inputValue] }

/-- Loop of lines 184-191: starts from the empty list and appends one filter
per entry of the Go map. -/
def filterList (inputTags : List (String × String)) : List Filter :=
  inputTags.foldl (fun filterList kv => filterList ++ [filterDetail kv.1 kv.2]) []

/-- Loop of lines 236-240: starts from an empty Go map and assigns every tag
of the record in order. -/
def clbTagMap (tags : List TagInfo) : List (String × TfString) :=
  tags.foldl (fun m t => mapSet m t.TagKey (TfString.known t.TagValue)) []

/-- Body of the loop of lines 225-249: the output record of one record of
the response. -/
def clbDetail (lbSet : LoadBalancer) : clbLoadBalancersDetail :=
  if lbSet.Tags.length < 1 then
    { Id := TfString.known lbSet.LoadBalancerId
      Name := TfString.known lbSet.LoadBalancerName
      Tags := TfMap.null }
  else
    { Id := TfString.known lbSet.LoadBalancerId
      Name := TfString.known lbSet.LoadBalancerName
      Tags := TfMap.known (clbTagMap lbSet.Tags) }

/-- Variables the closure `describeLb` mutates: the state under
construction, and (for the statements about the requests sent) the log of
the requests passed to the listing API. -/
structure Captured where
  state : clbInstancesDataSourceModel
  calls : List DescribeLoadBalancersRequest
  deriving DecidableEq, Repr

/-- Closure `describeLb` (lines 209-251): one call of the listing API, the
classification of its error, and on success the loop that appends every
record of the response to `state.LoadBalancers`. -/
def describeLb (env : Env) (client : Client) (request : DescribeLoadBalancersRequest)
    (attempt : Nat) (c : Captured) : Option OperationError × Captured :=
  let c1 : Captured := { c with calls := c.calls ++ [request] }
  match env.DescribeLoadBalancers client request attempt with
  | Except.error err =>
    match err with
    | GoError.sdk code _ _ =>
      if env.isRetryableErrCode code then
        (some (OperationError.plain err), c1)
      else
        (some (Permanent err), c1)
    | GoError.other _ => (some (OperationError.plain err), c1)
  | Except.ok loadBalancerSet =>
    (none,
      { c1 with
        state :=
          { c1.state with
            LoadBalancers :=
              loadBalancerSet.foldl (fun lbs lbSet => lbs ++ [clbDetail lbSet])
                c1.state.LoadBalancers } })

/-- What one invocation of `Read` leaves behind: the response, the data
source (with its stored client handle), the requests passed to the listing
API and the backoff delays slept. -/
structure ReadResult where
  resp : ReadResponse
  d : clbInstancesDataSource
  calls : List DescribeLoadBalancersRequest
  slept : List Nat
  deriving DecidableEq, Repr

/-- Lines 136-138 of `Read`: an absent `client_config` block is replaced by
the zero value. -/
def ensureClientConfig (plan : clbInstancesDataSourceModel) : clbInstancesDataSourceModel :=
  match plan.ClientConfig with
  | none => { plan with ClientConfig := some clientConfigWithZone.zero }
  | some _ => plan

/-- Lines 129-153 of `Read`: decode the configuration, default the
`client_config` block, and construct a new client when the resolver asks for
one (the result of `NewClient` is assigned to `d.client` before the error is
checked). An early return is the `error` case. -/
def resolveClient (env : Env) (d : clbInstancesDataSource) (req : ReadRequest)
    (resp : ReadResponse) :
    Except ReadResult (clbInstancesDataSourceModel × clbInstancesDataSource × ReadResponse) :=
  let getPlanDiags := req.Config.diags
  let resp1 : ReadResponse := { resp with Diagnostics := Append resp.Diagnostics getPlanDiags }
  if HasError getPlanDiags then
    Except.error { resp := resp1, d := d, calls := [], slept := [] }
  else
    let plan := ensureClientConfig req.Config.plan
    let ClientConfig := plan.ClientConfig.getD clientConfigWithZone.zero
    let initClient := (env.initNewClient d.client ClientConfig).1
    let clientConfig := (env.initNewClient d.client ClientConfig).2
    if initClient then
      let created := env.NewClient clientConfig.credential clientConfig.region
      let d1 : clbInstancesDataSource := { d with client := created.1 }
      match created.2 with
      | some err =>
        Except.error
          { resp :=
              { resp1 with
                Diagnostics :=
                  AddError resp1.Diagnostics
                    "Unable to Reinitialize Tencent Cloud Load Balancers API Client"
                    ("An unexpected error occurred when creating the Tencent Cloud Load Balancers API client. "
                      ++ "If the error is not clear, please contact the provider developers.\n\n"
                      ++ "Tencent Cloud Load Balancers Client Error: " ++ err.Error) }
            d := d1, calls := [], slept := [] }
      | none => Except.ok (plan, d1, resp1)
    else
      Except.ok (plan, d, resp1)

/-- Lines 162-207 of `Read`: the request builder. An early return (tag
conversion failure, zone lookup failure) is the `error` case. -/
def buildRequest (env : Env) (d : clbInstancesDataSource)
    (plan state : clbInstancesDataSourceModel) (resp : ReadResponse) :
    Except ReadResult (DescribeLoadBalancersRequest × ReadResponse) :=
  let request0 := NewDescribeLoadBalancersRequest
  let request1 :=
    if !(plan.Name.IsUnknown || plan.Name.IsNull) then
      { request0 with LoadBalancerName := some plan.Name.ValueString }
    else request0
  let request2 :=
    if !(plan.Id.IsUnknown || plan.Id.IsNull) then
      { request1 with LoadBalancerIds := some [state.Id.ValueString] }
    else request1
  let tagged : Except ReadResult (DescribeLoadBalancersRequest × ReadResponse) :=
    if !(plan.Tags.IsUnknown || plan.Tags.IsNull) then
      let converted := ElementsAs plan.Tags
      let resp1 : ReadResponse := { resp with Diagnostics := Append resp.Diagnostics converted.1 }
      if HasError resp1.Diagnostics then
        Except.error { resp := resp1, d := d, calls := [], slept := [] }
      else
        Except.ok ({ request2 with Filters := some (filterList converted.2) }, resp1)
    else Except.ok (request2, resp)
  match tagged with
  | Except.error out => Except.error out
  | Except.ok (request3, resp2) =>
    let Zone := (plan.ClientConfig.getD clientConfigWithZone.zero).Zone
    if Zone.ValueString ≠ "" then
      match env.getZoneId d.client Zone.ValueString with
      | Except.error err =>
        Except.error
          { resp :=
              { resp2 with
                Diagnostics :=
                  AddError resp2.Diagnostics "[API ERROR] Failed to Get Zone ID"
                    ("This is an error in provider. Please contact provider developer\n\n"
                      ++ "Error: " ++ err.Error) }
            d := d, calls := [], slept := [] }
      | Except.ok zoneId => Except.ok ({ request3 with MasterZone := some zoneId }, resp2)
    else Except.ok (request3, resp2)

/-- Method `Set` of the response state with the finished model: the state is
replaced by the model and no diagnostic is produced. -/
def StateSet (resp : ReadResponse) (state : clbInstancesDataSourceModel) : ReadResponse :=
  { resp with State := some state }

/-- Lines 253-269 of `Read`: the retried listing call under an exponential
backoff whose `MaxElapsedTime` is thirty seconds, then the error report or
the commit of the state. -/
def fetchAndCommit (env : Env) (d : clbInstancesDataSource)
    (state : clbInstancesDataSourceModel) (request : DescribeLoadBalancersRequest)
    (resp : ReadResponse) : ReadResult :=
  let reconnectBackoff : ExponentialBackOff :=
    { NewExponentialBackOff with MaxElapsedTime := 30 * Second }
  let run :=
    Retry (describeLb env d.client request) (grantedBackOffs env reconnectBackoff) 0
      { state := state, calls := [] }
  match run.err with
  | some err =>
    { resp :=
        { resp with
          Diagnostics :=
            AddError resp.Diagnostics "[API ERROR] Failed to Describe Load Balancers" err.Error }
      d := d, calls := run.final.calls, slept := run.slept }
  | none =>
    { resp := StateSet resp run.final.state
      d := d, calls := run.final.calls, slept := run.slept }

/-- Method `Read` of `clbInstancesDataSource` (lines 128-270). -/
def Read (env : Env) (d : clbInstancesDataSource) (req : ReadRequest)
    (resp : ReadResponse) : ReadResult :=
  match resolveClient env d req resp with
  | Except.error out => out
  | Except.ok (plan, d1, resp1) =>
    let state : clbInstancesDataSourceModel :=
      { ClientConfig := none, Id := plan.Id, Name := plan.Name, Tags := plan.Tags
        LoadBalancers := [] }
    match buildRequest env d1 plan state resp1 with
    | Except.error out => out
    | Except.ok (request, resp2) => fetchAndCommit env d1 state request resp2

/-! ## Statement vocabulary -/

/-- The error classes of section 4.3: an SDK error is retryable when its code
is in the retryable table, any other error is retryable. -/
def isRetryable (env : Env) : GoError → Bool
  | GoError.sdk code _ _ => env.isRetryableErrCode code
  | GoError.other _ => true

/-- The known value of a framework string, if it has one. -/
def TfString.knownValue : TfString → Option String
  | TfString.known s => some s
  | _ => none

/-- The `client_config` block `Read` works with: the configured block, or
the zero value when the block is absent. -/
def blockOf (req : ReadRequest) : clientConfigWithZone :=
  req.Config.plan.ClientConfig.getD clientConfigWithZone.zero

/-- The zone override of the configuration, as the string `Read` tests. -/
def zoneOf (req : ReadRequest) : String :=
  (blockOf req).Zone.ValueString

/-- Does the client resolver ask for a new client. -/
def needsNewClient (env : Env) (d : clbInstancesDataSource) (req : ReadRequest) : Bool :=
  (env.initNewClient d.client (blockOf req)).1

/-- What the client constructor returns for the configuration the resolver
resolved. -/
def constructed (env : Env) (d : clbInstancesDataSource) (req : ReadRequest) :
    Client × Option GoError :=
  env.NewClient (env.initNewClient d.client (blockOf req)).2.credential
    (env.initNewClient d.client (blockOf req)).2.region

/-- The client the zone lookup and the listing call are sent through. -/
def clientInUse (env : Env) (d : clbInstancesDataSource) (req : ReadRequest) : Client :=
  if needsNewClient env d req then (constructed env d req).1 else d.client

/-- Sufficient conditions for `Read` to get as far as the listing call: the
configuration decodes without error, the response carries no earlier error,
a needed client is constructed without error, every element of a known tag
map is a known string, and a non-empty zone is resolved. -/
def ReachesListing (env : Env) (d : clbInstancesDataSource) (req : ReadRequest)
    (resp : ReadResponse) : Prop :=
  HasError req.Config.diags = false ∧
  HasError resp.Diagnostics = false ∧
  (needsNewClient env d req = true → (constructed env d req).2 = none) ∧
  (∀ kv ∈ req.Config.plan.Tags.Elements, kv.2.isKnown = true) ∧
  (zoneOf req ≠ "" → ∃ zoneId, env.getZoneId (clientInUse env d req) (zoneOf req) = Except.ok zoneId)

/-- The model `Read` initialises at lines 155-160. -/
def initialState (req : ReadRequest) : clbInstancesDataSourceModel :=
  { ClientConfig := none, Id := req.Config.plan.Id, Name := req.Config.plan.Name
    Tags := req.Config.plan.Tags, LoadBalancers := [] }

/-- The diagnostics of the response when `Read` starts the listing call:
those it was given, then those of the configuration decoding, then those of
the tag-map conversion. -/
def diagnosticsBeforeListing (req : ReadRequest) (resp : ReadResponse) : Diagnostics :=
  Append (Append resp.Diagnostics req.Config.diags) (ElementsAs req.Config.plan.Tags).1

/-- What the request builder guarantees about the request it hands to the
listing call, in terms of the configuration. -/
def BuiltFor (env : Env) (d : clbInstancesDataSource) (req : ReadRequest)
    (request : DescribeLoadBalancersRequest) : Prop :=
  request =
    { NewDescribeLoadBalancersRequest with
      LoadBalancerName := req.Config.plan.Name.knownValue
      LoadBalancerIds := req.Config.plan.Id.knownValue.map (fun s => [s])
      Filters := request.Filters
      MasterZone := request.MasterZone } ∧
  (match req.Config.plan.Tags with
    | TfMap.known es =>
      request.Filters = some (filterList (es.map (fun kv => (kv.1, kv.2.ValueString)))) ∧
      (∀ kv ∈ es, kv.2.isKnown = true)
    | _ => request.Filters = none) ∧
  (if zoneOf req = "" then request.MasterZone = none
    else ∃ zoneId,
      env.getZoneId (clientInUse env d req) (zoneOf req) = Except.ok zoneId ∧
      request.MasterZone = some zoneId)

/-! ## Sample inputs -/

/-- A throttling error of the SDK, with a code of the sample retryable table. -/
def throttled : GoError := GoError.sdk "RequestLimitExceeded" "too many requests" "req-1"

/-- An authorisation error of the SDK, with a code outside the sample table. -/
def denied : GoError := GoError.sdk "AuthFailure" "signature mismatch" "req-2"

/-- The record of the example of section 8. -/
def lbTest : LoadBalancer :=
  { LoadBalancerId := "lb-123", LoadBalancerName := "lb-test"
    Tags := [{ TagKey := "env", TagValue := "prod" }] }

/-- A record without tags. -/
def lbBare : LoadBalancer :=
  { LoadBalancerId := "lb-456", LoadBalancerName := "lb-bare", Tags := [] }

/-- A record whose tag list repeats the key `env` with two values. -/
def lbRepeatedKey : LoadBalancer :=
  { LoadBalancerId := "lb-789", LoadBalancerName := "lb-dup"
    Tags := [{ TagKey := "env", TagValue := "a" }, { TagKey := "env", TagValue := "b" }] }

/-- A record with an empty identifier and an empty name. -/
def lbAnonymous : LoadBalancer :=
  { LoadBalancerId := "", LoadBalancerName := "", Tags := [] }

/-- Collaborators for the samples: no new client is needed, the zone
`ap-guangzhou-3` resolves to `100003`, the codes `RequestLimitExceeded` and
`InternalError` are retryable, the listing API is throttled twice and then
answers, every call takes a tenth of a second and the policy draws the
intervals 0.5 s, 0.75 s, 1 s, ... -/
def sampleEnv : Env :=
  { initNewClient := fun _ _ => (false, { credential := { SecretId := "", SecretKey := "" }, region := "" })
    NewClient := fun _ _ => ({ handle := 2 }, none)
    getZoneId := fun _ zone =>
      if zone = "ap-guangzhou-3" then Except.ok "100003"
      else Except.error (GoError.other "zone not found")
    isRetryableErrCode := fun code => code = "RequestLimitExceeded" || code = "InternalError"
    DescribeLoadBalancers := fun _ _ attempt =>
      if attempt < 2 then Except.error throttled else Except.ok [lbTest, lbBare, lbTest]
    callDuration := fun _ => 100000000
    nextInterval := fun k => 500000000 + 250000000 * k
    nextInterval_pos := fun _ => Nat.lt_of_lt_of_le (by decide) (Nat.le_add_right _ _) }

/-- The sample collaborators with listing calls that take twenty seconds
each, so that the budget grants one delay only. -/
def tightEnv : Env :=
  { sampleEnv with callDuration := fun _ => 20 * Second }

/-- The sample collaborators with a listing API that rejects the first call
with an error outside the retryable table. -/
def deniedEnv : Env :=
  { sampleEnv with DescribeLoadBalancers := fun _ _ _ => Except.error denied }

/-- The sample collaborators with a listing API that returns the record with
the repeated tag key and the record with the empty identifier and name. -/
def oddEnv : Env :=
  { sampleEnv with
    DescribeLoadBalancers := fun _ _ _ => Except.ok [lbRepeatedKey, lbAnonymous] }

/-- The sample collaborators with a resolver that asks for a new client. -/
def overrideEnv : Env :=
  { sampleEnv with
    initNewClient := fun _ _ =>
      (true, { credential := { SecretId := "id", SecretKey := "key" }, region := "ap-guangzhou" }) }

/-- The data source as configured by the provider: it stores the default
client. -/
def sampleSource : clbInstancesDataSource := { client := { handle := 1 } }

/-- The configuration of the example of section 8: name `lb-test` and the
tag `env` = `prod`. -/
def sampleRequest : ReadRequest :=
  { Config :=
      { diags := []
        plan :=
          { ClientConfig := none, Id := TfString.null, Name := TfString.known "lb-test"
            Tags := TfMap.known [("env", TfString.known "prod")], LoadBalancers := [] } } }

/-- A configuration with a known, empty tag map. -/
def emptyTagsRequest : ReadRequest :=
  { Config :=
      { diags := []
        plan :=
          { ClientConfig := none, Id := TfString.known "lb-123", Name := TfString.null
            Tags := TfMap.known [], LoadBalancers := [] } } }

/-- A configuration whose tag map holds a null element. -/
def nullTagRequest : ReadRequest :=
  { Config :=
      { diags := []
        plan :=
          { ClientConfig := none, Id := TfString.null, Name := TfString.null
            Tags := TfMap.known [("env", TfString.null)], LoadBalancers := [] } } }

/-- A configuration without any filter. -/
def plainRequest : ReadRequest :=
  { Config :=
      { diags := []
        plan :=
          { ClientConfig := none, Id := TfString.null, Name := TfString.null
            Tags := TfMap.null, LoadBalancers := [] } } }

/-- The response the framework hands to `Read`: no state and no diagnostics. -/
def freshResponse : ReadResponse := { State := none, Diagnostics := [] }

/-! ## Diagnostics -/

theorem Append_nil (ds : Diagnostics) : Append ds [] = ds := rfl

theorem HasError_append (a b : Diagnostics) :
    HasError (a ++ b) = (HasError a || HasError b) := by
  simp [HasError]

theorem HasError_of_mem {ds : Diagnostics} {x : Diagnostic} (hx : x ∈ ds)
    (he : x.severity = Severity.error) : HasError ds = true := by
  simp only [HasError, List.any_eq_true]
  exact ⟨x, hx, by simp [he]⟩

theorem HasError_Append (a b : Diagnostics) :
    HasError (Append a b) = (HasError a || HasError b) := by
  induction b generalizing a with
  | nil => simp [Append, HasError]
  | cons x rest ih =>
    have step : Append a (x :: rest) =
        Append (if a.contains x then a else a ++ [x]) rest := rfl
    rw [step, ih]
    by_cases hc : a.contains x = true
    · have hx : x ∈ a := by simpa using hc
      simp only [hc, if_true]
      by_cases he : x.severity = Severity.error
      · have h1 : HasError a = true := HasError_of_mem hx he
        simp [h1]
      · have h2 : HasError (x :: rest) = HasError rest := by
          simp [HasError, he]
        rw [h2]
    · rw [if_neg hc]
      have h3 : HasError (x :: rest) = (HasError [x] || HasError rest) := by
        simp [HasError]
      rw [h3, HasError_append, Bool.or_assoc]

theorem HasError_AddError (ds : Diagnostics) (summary detail : String) :
    HasError (AddError ds summary detail) = true := by
  unfold AddError
  rw [HasError_Append]
  simp [HasError]

/-! ## Loops -/

theorem foldl_snoc {α β : Type} (f : α → β) (l : List α) (start : List β) :
    l.foldl (fun acc x => acc ++ [f x]) start = start ++ l.map f := by
  induction l generalizing start with
  | nil => simp
  | cons x rest ih => simp [ih]

theorem filterList_eq_map (inputTags : List (String × String)) :
    filterList inputTags = inputTags.map (fun kv => filterDetail kv.1 kv.2) := by
  unfold filterList
  rw [foldl_snoc (fun kv : String × String => filterDetail kv.1 kv.2)]
  simp

/-! ## The stages of `Read` -/

theorem ensureClientConfig_fields (plan : clbInstancesDataSourceModel) :
    (ensureClientConfig plan).Id = plan.Id ∧ (ensureClientConfig plan).Name = plan.Name ∧
    (ensureClientConfig plan).Tags = plan.Tags ∧
    (ensureClientConfig plan).ClientConfig.getD clientConfigWithZone.zero =
      plan.ClientConfig.getD clientConfigWithZone.zero := by
  unfold ensureClientConfig
  cases h : plan.ClientConfig <;> simp [h]

theorem resolveClient_spec (env : Env) (d : clbInstancesDataSource) (req : ReadRequest)
    (resp : ReadResponse) :
    match resolveClient env d req resp with
    | Except.error out =>
      out.resp.State = resp.State ∧ HasError out.resp.Diagnostics = true ∧
      out.calls = [] ∧ out.slept = [] ∧
      ((HasError req.Config.diags = true ∧ out.d = d) ∨
        (HasError req.Config.diags = false ∧ needsNewClient env d req = true ∧
          (constructed env d req).2 ≠ none ∧ out.d.client = (constructed env d req).1))
    | Except.ok (plan, d1, resp1) =>
      HasError req.Config.diags = false ∧
      (needsNewClient env d req = true → (constructed env d req).2 = none) ∧
      d1.client = clientInUse env d req ∧
      resp1 = { resp with Diagnostics := Append resp.Diagnostics req.Config.diags } ∧
      plan.Id = req.Config.plan.Id ∧ plan.Name = req.Config.plan.Name ∧
      plan.Tags = req.Config.plan.Tags ∧
      plan.ClientConfig.getD clientConfigWithZone.zero = blockOf req := by
  obtain ⟨hid, hname, htags, hget⟩ := ensureClientConfig_fields req.Config.plan
  have hget1 : (ensureClientConfig req.Config.plan).ClientConfig.getD clientConfigWithZone.zero
      = blockOf req := hget
  unfold resolveClient
  by_cases hcfg : HasError req.Config.diags = true
  · simp [hcfg, HasError_Append]
  · have hcfg0 : HasError req.Config.diags = false := by simpa using hcfg
    simp only [hcfg0, hget1]
    by_cases hneed : needsNewClient env d req = true
    · have hneed1 : (env.initNewClient d.client (blockOf req)).1 = true := hneed
      cases hcons : (constructed env d req).2 with
      | none =>
        have hcons1 : (env.NewClient (env.initNewClient d.client (blockOf req)).2.credential
            (env.initNewClient d.client (blockOf req)).2.region).2 = none := hcons
        simp [hneed1, hcons1, hid, hname, htags, hget1, clientInUse, hneed, constructed]
      | some err =>
        have hcons1 : (env.NewClient (env.initNewClient d.client (blockOf req)).2.credential
            (env.initNewClient d.client (blockOf req)).2.region).2 = some err := hcons
        simp [hneed1, hcons1, HasError_AddError, hneed, constructed]
    · have hneed0 : (env.initNewClient d.client (blockOf req)).1 = false := by
        simpa [needsNewClient] using hneed
      simp [hneed0, hid, hname, htags, hget1, clientInUse, needsNewClient]

theorem ValueString_known (s : String) : (TfString.known s).ValueString = s := rfl

theorem ElementsAs_known (es : List (String × TfString)) :
    ElementsAs (TfMap.known es) =
      if es.all (fun kv => kv.2.isKnown) then
        ([], es.map (fun kv => (kv.1, kv.2.ValueString)))
      else ([valueConversionError], []) := rfl

theorem buildRequest_spec (env : Env) (d : clbInstancesDataSource)
    (plan state : clbInstancesDataSourceModel) (resp : ReadResponse) :
    match buildRequest env d plan state resp with
    | Except.error out =>
      out.resp.State = resp.State ∧ HasError out.resp.Diagnostics = true ∧
      out.calls = [] ∧ out.slept = [] ∧ out.d = d ∧
      ((∃ es, plan.Tags = TfMap.known es ∧
          HasError (Append resp.Diagnostics (ElementsAs plan.Tags).1) = true) ∨
        ((plan.ClientConfig.getD clientConfigWithZone.zero).Zone.ValueString ≠ "" ∧
          ∃ e, env.getZoneId d.client
            (plan.ClientConfig.getD clientConfigWithZone.zero).Zone.ValueString = Except.error e))
    | Except.ok (request, resp2) =>
      request =
        { NewDescribeLoadBalancersRequest with
          LoadBalancerName := plan.Name.knownValue
          LoadBalancerIds := plan.Id.knownValue.map (fun _ => [state.Id.ValueString])
          Filters := request.Filters
          MasterZone := request.MasterZone } ∧
      (match plan.Tags with
        | TfMap.known es =>
          request.Filters = some (filterList (es.map (fun kv => (kv.1, kv.2.ValueString)))) ∧
          (∀ kv ∈ es, kv.2.isKnown = true)
        | _ => request.Filters = none) ∧
      (if (plan.ClientConfig.getD clientConfigWithZone.zero).Zone.ValueString = "" then
          request.MasterZone = none
        else
          ∃ zoneId,
            env.getZoneId d.client (plan.ClientConfig.getD clientConfigWithZone.zero).Zone.ValueString
              = Except.ok zoneId ∧ request.MasterZone = some zoneId) ∧
      resp2.State = resp.State ∧
      resp2.Diagnostics = Append resp.Diagnostics (ElementsAs plan.Tags).1 ∧
      HasError resp2.Diagnostics = HasError resp.Diagnostics := by
  unfold buildRequest
  obtain ⟨z, hz⟩ : ∃ z, (plan.ClientConfig.getD clientConfigWithZone.zero).Zone.ValueString = z :=
    ⟨_, rfl⟩
  cases hT : plan.Tags with
  | known es =>
    by_cases hE : HasError (Append resp.Diagnostics (ElementsAs (TfMap.known es)).1) = true
    · cases hN : plan.Name <;> cases hI : plan.Id <;>
        simp [TfString.IsNull, TfString.IsUnknown, TfMap.IsNull, TfMap.IsUnknown, hE]
    · have hE0 : HasError (Append resp.Diagnostics (ElementsAs (TfMap.known es)).1) = false := by
        simpa using hE
      have hboth := hE0
      rw [HasError_Append, Bool.or_eq_false_iff] at hboth
      have hall : es.all (fun kv => kv.2.isKnown) = true := by
        by_contra hno
        have h1 := hboth.2
        rw [ElementsAs_known, if_neg hno] at h1
        simp [HasError, valueConversionError] at h1
      have hel : ElementsAs (TfMap.known es) =
          ([], es.map (fun kv => (kv.1, kv.2.ValueString))) := by
        rw [ElementsAs_known, if_pos hall]
      have hmem : ∀ (a : String) (b : TfString), (a, b) ∈ es → b.isKnown = true := by
        intro a b hab
        exact (List.all_eq_true.mp hall) (a, b) hab
      by_cases hz0 : z = ""
      · cases hN : plan.Name <;> cases hI : plan.Id <;>
          simp [TfString.IsNull, TfString.IsUnknown, TfMap.IsNull, TfMap.IsUnknown, hE0, hz, hz0,
            TfString.knownValue, ValueString_known, NewDescribeLoadBalancersRequest, hel, Append_nil, hboth.1] <;>
          exact hmem
      · cases hg : env.getZoneId d.client z <;> cases hN : plan.Name <;> cases hI : plan.Id <;>
          simp [TfString.IsNull, TfString.IsUnknown, TfMap.IsNull, TfMap.IsUnknown, hE0, hz, hz0,
            TfString.knownValue, ValueString_known, NewDescribeLoadBalancersRequest, hel, Append_nil, hboth.1, hg,
            HasError_AddError] <;>
          exact hmem
  | null =>
    by_cases hz0 : z = ""
    · cases hN : plan.Name <;> cases hI : plan.Id <;>
        simp [TfString.IsNull, TfString.IsUnknown, TfMap.IsNull, TfMap.IsUnknown, hz, hz0,
          TfString.knownValue, ValueString_known, NewDescribeLoadBalancersRequest, ElementsAs, TfMap.Elements,
          Append_nil]
    · cases hg : env.getZoneId d.client z <;> cases hN : plan.Name <;> cases hI : plan.Id <;>
        simp [TfString.IsNull, TfString.IsUnknown, TfMap.IsNull, TfMap.IsUnknown, hz, hz0,
          TfString.knownValue, ValueString_known, NewDescribeLoadBalancersRequest, ElementsAs, TfMap.Elements,
          Append_nil, hg, HasError_AddError]
  | unknown =>
    by_cases hz0 : z = ""
    · cases hN : plan.Name <;> cases hI : plan.Id <;>
        simp [TfString.IsNull, TfString.IsUnknown, TfMap.IsNull, TfMap.IsUnknown, hz, hz0,
          TfString.knownValue, ValueString_known, NewDescribeLoadBalancersRequest, ElementsAs, TfMap.Elements,
          Append_nil]
    · cases hg : env.getZoneId d.client z <;> cases hN : plan.Name <;> cases hI : plan.Id <;>
        simp [TfString.IsNull, TfString.IsUnknown, TfMap.IsNull, TfMap.IsUnknown, hz, hz0,
          TfString.knownValue, ValueString_known, NewDescribeLoadBalancersRequest, ElementsAs, TfMap.Elements,
          Append_nil, hg, HasError_AddError]

/-! ## The retried listing call -/

theorem describeLb_error (env : Env) (client : Client) (request : DescribeLoadBalancersRequest)
    (attempt : Nat) (c : Captured) (err : GoError)
    (h : env.DescribeLoadBalancers client request attempt = Except.error err) :
    describeLb env client request attempt c =
      (some (if isRetryable env err then OperationError.plain err
          else OperationError.permanent err),
        { c with calls := c.calls ++ [request] }) := by
  unfold describeLb
  simp only [h]
  cases err with
  | sdk code message requestId =>
    by_cases hc : env.isRetryableErrCode code = true
    · simp [isRetryable, hc]
    · simp [isRetryable, hc, Permanent]
  | other text => simp [isRetryable]

theorem describeLb_ok (env : Env) (client : Client) (request : DescribeLoadBalancersRequest)
    (attempt : Nat) (c : Captured) (lbs : List LoadBalancer)
    (h : env.DescribeLoadBalancers client request attempt = Except.ok lbs) :
    describeLb env client request attempt c =
      (none,
        { state := { c.state with LoadBalancers := c.state.LoadBalancers ++ lbs.map clbDetail }
          calls := c.calls ++ [request] }) := by
  unfold describeLb
  simp only [h]
  rw [foldl_snoc clbDetail]

theorem Retry_ok {S : Type} (operation : Nat → S → Option OperationError × S)
    (granted : List Nat) (attempt : Nat) (s s1 : S) (h : operation attempt s = (none, s1)) :
    Retry operation granted attempt s = { err := none, final := s1, attempts := 1, slept := [] } := by
  cases granted <;> simp [Retry, h]

theorem Retry_permanent {S : Type} (operation : Nat → S → Option OperationError × S)
    (granted : List Nat) (attempt : Nat) (s s1 : S) (e : GoError)
    (h : operation attempt s = (some (OperationError.permanent e), s1)) :
    Retry operation granted attempt s =
      { err := some e, final := s1, attempts := 1, slept := [] } := by
  cases granted <;> simp [Retry, h]

theorem Retry_stop {S : Type} (operation : Nat → S → Option OperationError × S)
    (attempt : Nat) (s s1 : S) (e : GoError)
    (h : operation attempt s = (some (OperationError.plain e), s1)) :
    Retry operation [] attempt s =
      { err := some e, final := s1, attempts := 1, slept := [] } := by
  simp [Retry, h]

theorem Retry_again {S : Type} (operation : Nat → S → Option OperationError × S)
    (delay : Nat) (rest : List Nat) (attempt : Nat) (s s1 : S) (e : GoError)
    (h : operation attempt s = (some (OperationError.plain e), s1)) :
    Retry operation (delay :: rest) attempt s =
      { Retry operation rest (attempt + 1) s1 with
        attempts := (Retry operation rest (attempt + 1) s1).attempts + 1
        slept := delay :: (Retry operation rest (attempt + 1) s1).slept } := by
  rw [Retry]
  simp only [h]

theorem Retry_describeLb_spec (env : Env) (client : Client)
    (request : DescribeLoadBalancersRequest) (granted : List Nat) :
    ∀ (attempt : Nat) (c : Captured),
      (Retry (describeLb env client request) granted attempt c).attempts =
        (Retry (describeLb env client request) granted attempt c).slept.length + 1 ∧
      (Retry (describeLb env client request) granted attempt c).final.calls =
        c.calls ++ List.replicate
          (Retry (describeLb env client request) granted attempt c).attempts request ∧
      (match (Retry (describeLb env client request) granted attempt c).err with
        | none =>
          ∃ lbs,
            env.DescribeLoadBalancers client request
              (attempt + (Retry (describeLb env client request) granted attempt c).slept.length)
                = Except.ok lbs ∧
            (Retry (describeLb env client request) granted attempt c).final.state =
              { c.state with LoadBalancers := c.state.LoadBalancers ++ lbs.map clbDetail }
        | some e =>
          env.DescribeLoadBalancers client request
            (attempt + (Retry (describeLb env client request) granted attempt c).slept.length)
              = Except.error e ∧
          (Retry (describeLb env client request) granted attempt c).final.state = c.state) := by
  induction granted with
  | nil =>
    intro attempt c
    cases hapi : env.DescribeLoadBalancers client request attempt with
    | ok lbs =>
      rw [Retry_ok _ _ _ _ _ (describeLb_ok env client request attempt c lbs hapi)]
      simp [hapi]
    | error e =>
      have hd := describeLb_error env client request attempt c e hapi
      by_cases hr : isRetryable env e = true
      · rw [if_pos hr] at hd
        rw [Retry_stop _ _ _ _ _ hd]
        simp [hapi]
      · rw [if_neg hr] at hd
        rw [Retry_permanent _ _ _ _ _ _ hd]
        simp [hapi]
  | cons delay rest ih =>
    intro attempt c
    cases hapi : env.DescribeLoadBalancers client request attempt with
    | ok lbs =>
      rw [Retry_ok _ _ _ _ _ (describeLb_ok env client request attempt c lbs hapi)]
      simp [hapi]
    | error e =>
      have hd := describeLb_error env client request attempt c e hapi
      by_cases hr : isRetryable env e = true
      · rw [if_pos hr] at hd
        rw [Retry_again _ _ _ _ _ _ _ hd]
        obtain ⟨h1, h2, h3⟩ := ih (attempt + 1) { c with calls := c.calls ++ [request] }
        refine ⟨by simp [h1], ?_, ?_⟩
        · simp only [h2, h1]
          simp [List.replicate_succ]
        · have hidx : attempt + 1 +
              (Retry (describeLb env client request) rest (attempt + 1)
                { c with calls := c.calls ++ [request] }).slept.length =
              attempt + ((Retry (describeLb env client request) rest (attempt + 1)
                { c with calls := c.calls ++ [request] }).slept.length + 1) := by omega
          rw [hidx] at h3
          simpa using h3
      · rw [if_neg hr] at hd
        rw [Retry_permanent _ _ _ _ _ _ hd]
        simp [hapi]

theorem Retry_script (env : Env) (client : Client) (request : DescribeLoadBalancersRequest)
    (errs : Nat → GoError) (lbs : List LoadBalancer) :
    ∀ (N : Nat) (granted : List Nat) (attempt : Nat) (c : Captured),
      (∀ j, j < N →
        env.DescribeLoadBalancers client request (attempt + j) = Except.error (errs (attempt + j)) ∧
        isRetryable env (errs (attempt + j)) = true) →
      env.DescribeLoadBalancers client request (attempt + N) = Except.ok lbs →
      Retry (describeLb env client request) granted attempt c =
        if N ≤ granted.length then
          { err := none
            final :=
              { state := { c.state with
                  LoadBalancers := c.state.LoadBalancers ++ lbs.map clbDetail }
                calls := c.calls ++ List.replicate (N + 1) request }
            attempts := N + 1
            slept := granted.take N }
        else
          { err := some (errs (attempt + granted.length))
            final := { c with calls := c.calls ++ List.replicate (granted.length + 1) request }
            attempts := granted.length + 1
            slept := granted } := by
  intro N
  induction N with
  | zero =>
    intro granted attempt c _ hok
    rw [Retry_ok _ _ _ _ _ (describeLb_ok env client request attempt c lbs hok)]
    simp
  | succ N ih =>
    intro granted attempt c hfail hok
    have h0 := hfail 0 (Nat.succ_pos N)
    have hd := describeLb_error env client request attempt c _ h0.1
    rw [if_pos h0.2] at hd
    cases granted with
    | nil =>
      rw [Retry_stop _ _ _ _ _ hd]
      simp
    | cons delay rest =>
      rw [Retry_again _ _ _ _ _ _ _ hd]
      have hfail1 : ∀ j, j < N →
          env.DescribeLoadBalancers client request (attempt + 1 + j)
            = Except.error (errs (attempt + 1 + j)) ∧
          isRetryable env (errs (attempt + 1 + j)) = true := by
        intro j hj
        have := hfail (j + 1) (Nat.succ_lt_succ hj)
        have hidx : attempt + (j + 1) = attempt + 1 + j := by omega
        rw [hidx] at this
        exact this
      have hok1 : env.DescribeLoadBalancers client request (attempt + 1 + N) = Except.ok lbs := by
        have hidx : attempt + (N + 1) = attempt + 1 + N := by omega
        rw [← hidx]
        exact hok
      rw [ih rest (attempt + 1) { c with calls := c.calls ++ [request] } hfail1 hok1]
      by_cases hle : N ≤ rest.length
      · have hle1 : N + 1 ≤ (delay :: rest).length := by simpa using hle
        rw [if_pos hle, if_pos hle1]
        simp [List.replicate_succ]
      · have hle1 : ¬ N + 1 ≤ (delay :: rest).length := by simpa using hle
        rw [if_neg hle, if_neg hle1]
        have hidx : attempt + 1 + rest.length = attempt + (delay :: rest).length := by
          simp
          omega
        simp [List.replicate_succ, hidx]

/-! ## `Read` as a whole -/

theorem Read_cases (env : Env) (d : clbInstancesDataSource) (req : ReadRequest)
    (resp : ReadResponse) :
    (Read env d req resp).d.client =
      (if HasError req.Config.diags = true then d.client else clientInUse env d req) ∧
    ((HasError (Read env d req resp).resp.Diagnostics = true ∧
        (Read env d req resp).resp.State = resp.State ∧
        (Read env d req resp).calls = [] ∧ (Read env d req resp).slept = [] ∧
        (HasError req.Config.diags = true ∨
          (needsNewClient env d req = true ∧ (constructed env d req).2 ≠ none) ∨
          ((∃ es, req.Config.plan.Tags = TfMap.known es) ∧
            HasError (diagnosticsBeforeListing req resp) = true) ∨
          (zoneOf req ≠ "" ∧
            ∃ e, env.getZoneId (clientInUse env d req) (zoneOf req) = Except.error e))) ∨
      (HasError req.Config.diags = false ∧
        (needsNewClient env d req = true → (constructed env d req).2 = none) ∧
        HasError (diagnosticsBeforeListing req resp) = HasError resp.Diagnostics ∧
        ∃ request,
          BuiltFor env d req request ∧
          Read env d req resp =
            fetchAndCommit env { client := clientInUse env d req } (initialState req) request
              { State := resp.State, Diagnostics := diagnosticsBeforeListing req resp })) := by
  have h1 := resolveClient_spec env d req resp
  unfold Read
  cases hrc : resolveClient env d req resp with
  | error out =>
    rw [hrc] at h1
    simp only at h1
    obtain ⟨hs, he, hc, hsl, hd⟩ := h1
    rcases hd with ⟨hcfg, hdd⟩ | ⟨hcfg, hneed, hcons, hdd⟩
    · refine ⟨by simp [hcfg, hdd], Or.inl ⟨he, hs, hc, hsl, Or.inl hcfg⟩⟩
    · refine ⟨?_, Or.inl ⟨he, hs, hc, hsl, Or.inr (Or.inl ⟨hneed, hcons⟩)⟩⟩
      simp [hcfg, hdd, clientInUse, hneed]
  | ok triple =>
    obtain ⟨plan, d1, resp1⟩ := triple
    rw [hrc] at h1
    simp only at h1
    obtain ⟨hcfg, hcons, hd1, hr1, hid, hname, htags, hblock⟩ := h1
    have hd1eq : d1 = { client := clientInUse env d req } := by
      cases d1
      simp only at hd1
      simp [hd1]
    subst hd1eq
    have hstate : ({ ClientConfig := none, Id := plan.Id, Name := plan.Name
                     Tags := plan.Tags, LoadBalancers := [] } : clbInstancesDataSourceModel)
        = initialState req := by
      simp [initialState, hid, hname, htags]
    dsimp only
    rw [hstate]
    have h2 := buildRequest_spec env { client := clientInUse env d req } plan (initialState req)
      resp1
    rw [hblock] at h2
    have hzone : (blockOf req).Zone.ValueString = zoneOf req := rfl
    rw [hzone] at h2
    cases hb : buildRequest env { client := clientInUse env d req } plan (initialState req)
        resp1 with
    | error out =>
      rw [hb] at h2
      simp only at h2
      obtain ⟨hs, he, hc, hsl, hdd, hwhy⟩ := h2
      refine ⟨by simp [hcfg, hdd], Or.inl ⟨he, ?_, hc, hsl, ?_⟩⟩
      · rw [hs, hr1]
      · rcases hwhy with ⟨es, hes, hE⟩ | hz
        · refine Or.inr (Or.inr (Or.inl ⟨⟨es, by rw [← htags]; exact hes⟩, ?_⟩))
          rw [hr1, htags] at hE
          exact hE
        · exact Or.inr (Or.inr (Or.inr hz))
    | ok pair =>
      obtain ⟨request, resp2⟩ := pair
      rw [hb] at h2
      simp only at h2
      obtain ⟨hreq, hfil, hzn, hs2, hd2, he2⟩ := h2
      refine ⟨by simp [hcfg, fetchAndCommit]; split <;> rfl, Or.inr ⟨hcfg, hcons, ?_, request, ?_, ?_⟩⟩
      · rw [hr1, htags] at hd2
        have : diagnosticsBeforeListing req resp = resp2.Diagnostics := hd2.symm
        rw [this, he2, hr1]
        simp [HasError_Append, hcfg]
      · refine ⟨?_, ?_, hzn⟩
        · rw [hname, hid] at hreq
          have hids : req.Config.plan.Id.knownValue.map
              (fun _ => [(initialState req).Id.ValueString]) =
              req.Config.plan.Id.knownValue.map (fun s => [s]) := by
            cases hI : req.Config.plan.Id <;> simp [TfString.knownValue, initialState, hI,
              ValueString_known]
          rw [hids] at hreq
          exact hreq
        · rw [htags] at hfil
          exact hfil
      · have hresp2 : resp2 =
            { State := resp.State, Diagnostics := diagnosticsBeforeListing req resp } := by
          cases resp2
          simp only at hs2 hd2
          rw [hr1, htags] at hd2
          rw [hr1] at hs2
          simp [hs2, hd2, diagnosticsBeforeListing]
        rw [hresp2]

theorem fetchAndCommit_spec (env : Env) (d : clbInstancesDataSource)
    (state : clbInstancesDataSourceModel) (request : DescribeLoadBalancersRequest)
    (resp : ReadResponse) :
    (fetchAndCommit env d state request resp).d = d ∧
    ∃ n, (fetchAndCommit env d state request resp).calls = List.replicate (n + 1) request ∧
      (fetchAndCommit env d state request resp).slept.length = n ∧
      ((∃ e, env.DescribeLoadBalancers d.client request n = Except.error e ∧
          (fetchAndCommit env d state request resp).resp =
            { resp with
              Diagnostics :=
                AddError resp.Diagnostics "[API ERROR] Failed to Describe Load Balancers"
                  e.Error }) ∨
        (∃ lbs, env.DescribeLoadBalancers d.client request n = Except.ok lbs ∧
          (fetchAndCommit env d state request resp).resp =
            { State := some { state with
                LoadBalancers := state.LoadBalancers ++ lbs.map clbDetail }
              Diagnostics := resp.Diagnostics })) := by
  obtain ⟨h1, h2, h3⟩ := Retry_describeLb_spec env d.client request
    (grantedBackOffs env { NewExponentialBackOff with MaxElapsedTime := 30 * Second }) 0
    { state := state, calls := [] }
  unfold fetchAndCommit
  dsimp only
  cases herr : (Retry (describeLb env d.client request)
      (grantedBackOffs env { NewExponentialBackOff with MaxElapsedTime := 30 * Second }) 0
      { state := state, calls := [] }).err with
  | some e =>
    rw [herr] at h3
    simp only [Nat.zero_add] at h3
    refine ⟨rfl, _, ?_, rfl, Or.inl ⟨e, h3.1, rfl⟩⟩
    simp only [h2, h1, List.nil_append]
  | none =>
    rw [herr] at h3
    simp only [Nat.zero_add] at h3
    obtain ⟨lbs, hapi, hst⟩ := h3
    refine ⟨rfl, _, ?_, rfl, Or.inr ⟨lbs, hapi, ?_⟩⟩
    · simp only [h2, h1, List.nil_append]
    · simp only [StateSet, hst]

theorem fetchAndCommit_script (env : Env) (d : clbInstancesDataSource)
    (state : clbInstancesDataSourceModel) (request : DescribeLoadBalancersRequest)
    (resp : ReadResponse) (errs : Nat → GoError) (lbs : List LoadBalancer) (N : Nat)
    (hfail : ∀ j, j < N →
      env.DescribeLoadBalancers d.client request j = Except.error (errs j))
    (hretry : ∀ j, j < N → isRetryable env (errs j) = true)
    (hok : env.DescribeLoadBalancers d.client request N = Except.ok lbs) :
    fetchAndCommit env d state request resp =
      if N ≤ (grantedBackOffs env { MaxElapsedTime := 30 * Second }).length then
        { resp :=
            { State := some { state with
                LoadBalancers := state.LoadBalancers ++ lbs.map clbDetail }
              Diagnostics := resp.Diagnostics }
          d := d
          calls := List.replicate (N + 1) request
          slept := (grantedBackOffs env { MaxElapsedTime := 30 * Second }).take N }
      else
        { resp :=
            { resp with
              Diagnostics :=
                AddError resp.Diagnostics "[API ERROR] Failed to Describe Load Balancers"
                  (errs (grantedBackOffs env { MaxElapsedTime := 30 * Second }).length).Error }
          d := d
          calls := List.replicate
            ((grantedBackOffs env { MaxElapsedTime := 30 * Second }).length + 1) request
          slept := grantedBackOffs env { MaxElapsedTime := 30 * Second } } := by
  have hscript := Retry_script env d.client request errs lbs N
    (grantedBackOffs env { MaxElapsedTime := 30 * Second }) 0 { state := state, calls := [] }
    (by
      intro j hj
      simp only [Nat.zero_add]
      exact ⟨hfail j hj, hretry j hj⟩)
    (by simpa using hok)
  have hb : ({ NewExponentialBackOff with MaxElapsedTime := 30 * Second } : ExponentialBackOff)
      = { MaxElapsedTime := 30 * Second } := rfl
  unfold fetchAndCommit
  dsimp only
  rw [hb, hscript]
  by_cases hle : N ≤ (grantedBackOffs env { MaxElapsedTime := 30 * Second }).length
  · simp [hle, StateSet]
  · simp [hle]

theorem ElementsAs_of_all_known (m : TfMap) (h : ∀ kv ∈ m.Elements, kv.2.isKnown = true) :
    ElementsAs m = ([], m.Elements.map (fun kv => (kv.1, kv.2.ValueString))) := by
  unfold ElementsAs
  rw [if_pos]
  exact List.all_eq_true.mpr h

theorem Read_of_reaches (env : Env) (d : clbInstancesDataSource) (req : ReadRequest)
    (resp : ReadResponse) (h : ReachesListing env d req resp) :
    HasError (diagnosticsBeforeListing req resp) = false ∧
    ∃ request,
      BuiltFor env d req request ∧
      Read env d req resp =
        fetchAndCommit env { client := clientInUse env d req } (initialState req) request
          { State := resp.State, Diagnostics := diagnosticsBeforeListing req resp } := by
  obtain ⟨hcfg, hresp, hcons, htags, hzone⟩ := h
  have hdiag : HasError (diagnosticsBeforeListing req resp) = false := by
    unfold diagnosticsBeforeListing
    rw [HasError_Append, HasError_Append, hcfg, hresp, ElementsAs_of_all_known _ htags]
    rfl
  refine ⟨hdiag, ?_⟩
  rcases (Read_cases env d req resp).2 with hbad | hgood
  · obtain ⟨_, _, _, _, hwhy⟩ := hbad
    rcases hwhy with h1 | ⟨h2, h3⟩ | ⟨_, h4⟩ | ⟨h5, e, h6⟩
    · rw [hcfg] at h1
      exact absurd h1 (by decide)
    · exact absurd (hcons h2) h3
    · rw [hdiag] at h4
      exact absurd h4 (by decide)
    · obtain ⟨zoneId, hz⟩ := hzone h5
      rw [hz] at h6
      exact absurd h6 (by simp)
  · exact hgood.2.2.2

theorem sample_reaches (req : ReadRequest) (hdiags : req.Config.diags = [])
    (hblock : req.Config.plan.ClientConfig = none)
    (htags : ∀ kv ∈ req.Config.plan.Tags.Elements, kv.2.isKnown = true)
    (env : Env) (hinit : ∀ c b, (env.initNewClient c b).1 = false) :
    ReachesListing env sampleSource req freshResponse := by
  refine ⟨by rw [hdiags]; rfl, rfl, ?_, htags, ?_⟩
  · intro h
    rw [needsNewClient, hinit] at h
    exact absurd h (by decide)
  · intro h
    exact absurd (by simp [zoneOf, blockOf, hblock, clientConfigWithZone.zero,
      TfString.ValueString]) h

theorem Read_calls_of_reaches (env : Env) (d : clbInstancesDataSource) (req : ReadRequest)
    (resp : ReadResponse) (h : ReachesListing env d req resp) :
    ∃ request n, BuiltFor env d req request ∧
      (Read env d req resp).calls = List.replicate (n + 1) request := by
  obtain ⟨_, request, hbuilt, hread⟩ := Read_of_reaches env d req resp h
  obtain ⟨_, n, hcalls, _⟩ := fetchAndCommit_spec env { client := clientInUse env d req }
    (initialState req) request
    { State := resp.State, Diagnostics := diagnosticsBeforeListing req resp }
  exact ⟨request, n, hbuilt, by rw [hread, hcalls]⟩

/-! ## Go maps built by assignment -/

theorem mapGet_mapSet {V : Type} (m : List (String × V)) (k : String) (v : V) (k1 : String) :
    mapGet (mapSet m k v) k1 = if k = k1 then some v else mapGet m k1 := by
  induction m with
  | nil => simp [mapSet, mapGet]
  | cons e rest ih =>
    obtain ⟨k0, v0⟩ := e
    by_cases h0 : k0 = k
    · subst h0
      by_cases h1 : k0 = k1 <;> simp [mapSet, mapGet, h1]
    · by_cases h1 : k0 = k1
      · subst h1
        have hk : ¬ k = k0 := fun h => h0 h.symm
        simp [mapSet, mapGet, h0, hk]
      · simp [mapSet, mapGet, h0, h1, ih]

theorem keys_mapSet {V : Type} (m : List (String × V)) (k : String) (v : V) (k1 : String)
    (h : k1 ∈ (mapSet m k v).map Prod.fst) : k1 = k ∨ k1 ∈ m.map Prod.fst := by
  induction m with
  | nil =>
    simp [mapSet] at h
    exact Or.inl h
  | cons e rest ih =>
    obtain ⟨k0, v0⟩ := e
    by_cases h0 : k0 = k
    · simp [mapSet, h0] at h
      rcases h with h | h
      · exact Or.inl h
      · exact Or.inr (by simp; right; simpa using h)
    · simp only [mapSet, if_neg h0, List.map_cons, List.mem_cons] at h
      rcases h with h | h
      · exact Or.inr (by simp [h])
      · rcases ih h with h2 | h2
        · exact Or.inl h2
        · exact Or.inr (List.mem_cons_of_mem _ h2)

theorem nodup_keys_mapSet {V : Type} (m : List (String × V)) (k : String) (v : V)
    (h : (m.map Prod.fst).Nodup) : ((mapSet m k v).map Prod.fst).Nodup := by
  induction m with
  | nil => simp [mapSet]
  | cons e rest ih =>
    obtain ⟨k0, v0⟩ := e
    simp only [List.map_cons, List.nodup_cons] at h
    by_cases h0 : k0 = k
    · subst h0
      simp only [mapSet, if_true, List.map_cons, List.nodup_cons]
      exact h
    · simp only [mapSet, if_neg h0, List.map_cons, List.nodup_cons]
      refine ⟨?_, ih h.2⟩
      intro hin
      rcases keys_mapSet rest k v k0 hin with h2 | h2
      · exact h0 h2
      · exact h.1 h2

theorem mem_iff_mapGet {V : Type} (m : List (String × V)) (h : (m.map Prod.fst).Nodup)
    (k : String) (v : V) : (k, v) ∈ m ↔ mapGet m k = some v := by
  induction m with
  | nil => simp [mapGet]
  | cons e rest ih =>
    obtain ⟨k0, v0⟩ := e
    simp only [List.map_cons, List.nodup_cons] at h
    by_cases h0 : k0 = k
    · subst h0
      simp only [mapGet, if_true, List.mem_cons, Prod.mk.injEq, true_and, Option.some.injEq]
      constructor
      · rintro (h1 | h1)
        · exact h1.symm
        · exact absurd (List.mem_map_of_mem Prod.fst h1) h.1
      · intro h1
        exact Or.inl h1.symm
    · have hk : ¬ k = k0 := fun h1 => h0 h1.symm
      simp only [mapGet, if_neg h0, List.mem_cons, Prod.mk.injEq, hk, false_and, false_or]
      exact ih h.2

theorem foldl_mapSet_spec (tags : List TagInfo) :
    ∀ m : List (String × TfString), (m.map Prod.fst).Nodup →
      ((tags.foldl (fun m t => mapSet m t.TagKey (TfString.known t.TagValue)) m).map
        Prod.fst).Nodup ∧
      ∀ k, mapGet (tags.foldl (fun m t => mapSet m t.TagKey (TfString.known t.TagValue)) m) k =
        ((tags.reverse.find? (fun t => decide (t.TagKey = k))).map
          (fun t => TfString.known t.TagValue)).or (mapGet m k) := by
  induction tags with
  | nil =>
    intro m hm
    exact ⟨hm, fun k => by simp⟩
  | cons t rest ih =>
    intro m hm
    obtain ⟨h1, h2⟩ := ih (mapSet m t.TagKey (TfString.known t.TagValue))
      (nodup_keys_mapSet m _ _ hm)
    refine ⟨h1, ?_⟩
    intro k
    simp only [List.foldl_cons, h2, mapGet_mapSet, List.reverse_cons, List.find?_append]
    cases hfind : rest.reverse.find? (fun t => decide (t.TagKey = k)) with
    | some t1 => simp
    | none =>
      by_cases hk : t.TagKey = k
      · simp [hk]
      · simp [hk]

theorem clbTagMap_spec (tags : List TagInfo) :
    ((clbTagMap tags).map Prod.fst).Nodup ∧
    ∀ k v, (k, v) ∈ clbTagMap tags ↔
      (tags.reverse.find? (fun t => decide (t.TagKey = k))).map
        (fun t => TfString.known t.TagValue) = some v := by
  obtain ⟨h1, h2⟩ := foldl_mapSet_spec tags [] (by simp)
  refine ⟨h1, ?_⟩
  intro k v
  have h3 := h2 k
  simp only [mapGet, Option.or_none] at h3
  rw [← h3]
  exact mem_iff_mapGet _ h1 k v

theorem clbDetail_Id_Name (lbSet : LoadBalancer) :
    (clbDetail lbSet).Id = TfString.known lbSet.LoadBalancerId ∧
    (clbDetail lbSet).Name = TfString.known lbSet.LoadBalancerName := by
  unfold clbDetail
  split <;> exact ⟨rfl, rfl⟩

/-- The two outcomes of `Read`: nothing committed and an error recorded, or
the state set to the full mapped result of the last listing call. -/
theorem Read_outcome (env : Env) (d : clbInstancesDataSource) (req : ReadRequest)
    (resp : ReadResponse) :
    ((Read env d req resp).resp.State = resp.State ∧
      HasError (Read env d req resp).resp.Diagnostics = true ∧
      ∀ request ∈ (Read env d req resp).calls, ∀ lbs,
        env.DescribeLoadBalancers (clientInUse env d req) request
          ((Read env d req resp).calls.length - 1) ≠ Except.ok lbs) ∨
    (ReachesListing env d req { resp with Diagnostics := [] } ∧
      HasError (diagnosticsBeforeListing req resp) = HasError resp.Diagnostics ∧
      (Read env d req resp).resp.Diagnostics = diagnosticsBeforeListing req resp ∧
      ∃ request lbs, (Read env d req resp).calls ≠ [] ∧
        (∀ r ∈ (Read env d req resp).calls, r = request) ∧
        env.DescribeLoadBalancers (clientInUse env d req) request
          ((Read env d req resp).calls.length - 1) = Except.ok lbs ∧
        (Read env d req resp).resp.State =
          some { ClientConfig := none, Id := req.Config.plan.Id, Name := req.Config.plan.Name
                 Tags := req.Config.plan.Tags, LoadBalancers := lbs.map clbDetail }) := by
  rcases (Read_cases env d req resp).2 with hbad | hgood
  · obtain ⟨he, hs, hc, _, _⟩ := hbad
    refine Or.inl ⟨hs, he, ?_⟩
    rw [hc]
    intro request hmem
    exact absurd hmem (List.not_mem_nil _)
  · obtain ⟨hcfg, hcons, hdiag, request, hbuilt, hread⟩ := hgood
    obtain ⟨_, n, hcalls, _, hres⟩ := fetchAndCommit_spec env { client := clientInUse env d req }
      (initialState req) request
      { State := resp.State, Diagnostics := diagnosticsBeforeListing req resp }
    rw [← hread] at hcalls hres
    have hlen : (Read env d req resp).calls.length - 1 = n := by
      rw [hcalls]
      simp
    rw [hlen]
    rcases hres with ⟨e, hapi, hresp⟩ | ⟨lbs, hapi, hresp⟩
    · refine Or.inl ⟨by rw [hresp], by rw [hresp]; exact HasError_AddError _ _ _, ?_⟩
      intro r hmem lbs
      rw [hcalls] at hmem
      rw [(List.mem_replicate.mp hmem).2]
      simp only at hapi
      rw [hapi]
      simp
    · refine Or.inr ⟨⟨hcfg, rfl, hcons, ?_, ?_⟩, hdiag, by rw [hresp], request, lbs, ?_, ?_, hapi, ?_⟩
      · obtain ⟨_, htags, _⟩ := hbuilt
        intro kv hkv
        cases hT : req.Config.plan.Tags with
        | known es =>
          rw [hT] at htags hkv
          exact htags.2 kv hkv
        | null =>
          rw [hT] at hkv
          exact absurd hkv (List.not_mem_nil _)
        | unknown =>
          rw [hT] at hkv
          exact absurd hkv (List.not_mem_nil _)
      · obtain ⟨_, _, hzone⟩ := hbuilt
        intro hz
        rw [if_neg hz] at hzone
        obtain ⟨zoneId, hok, _⟩ := hzone
        exact ⟨zoneId, hok⟩
      · rw [hcalls]
        simp [List.replicate_succ]
      · intro r hmem
        rw [hcalls] at hmem
        exact (List.mem_replicate.mp hmem).2
      · rw [hresp]
        simp [initialState]

/-! ## The elapsed-time budget of the backoff policy -/

/-- C6: when the listing call of one attempt of `describeLb` returns an
error, the attempt returns it as retryable (unwrapped) if it is an SDK error
whose code is in the retryable table, as permanent (wrapped by
`backoff.Permanent`) if it is an SDK error with any other code, and as
retryable if it is not an SDK error; so the attempt is permanent exactly
when the error is an SDK error with a non-retryable code. The state under
construction is not touched by a failed attempt. -/
theorem describeLb_classifies_error (env : Env) (client : Client)
    (request : DescribeLoadBalancersRequest) (attempt : Nat) (c : Captured) (err : GoError)
    (h : env.DescribeLoadBalancers client request attempt = Except.error err) :
    (∀ code message requestId, err = GoError.sdk code message requestId →
      env.isRetryableErrCode code = true →
      (describeLb env client request attempt c).1 = some (OperationError.plain err)) ∧
    (∀ code message requestId, err = GoError.sdk code message requestId →
      env.isRetryableErrCode code = false →
      (describeLb env client request attempt c).1 = some (Permanent err)) ∧
    (∀ text, err = GoError.other text →
      (describeLb env client request attempt c).1 = some (OperationError.plain err)) ∧
    ((describeLb env client request attempt c).1 = some (Permanent err) ↔
      ∃ code message requestId,
        err = GoError.sdk code message requestId ∧ env.isRetryableErrCode code = false) ∧
    (describeLb env client request attempt c).2.state = c.state := by
  rw [describeLb_error env client request attempt c err h]
  refine ⟨?_, ?_, ?_, ?_, rfl⟩
  · intro code message requestId he hc
    subst he
    simp [isRetryable, hc]
  · intro code message requestId he hc
    subst he
    simp [isRetryable, hc, Permanent]
  · intro text he
    subst he
    simp [isRetryable]
  · cases err with
    | sdk code message requestId =>
      by_cases hc : env.isRetryableErrCode code = true
      · simp [isRetryable, hc, Permanent]
      · simp [isRetryable, hc, Permanent]
    | other text => simp [isRetryable, Permanent]

/-- Witness of C6: the authorisation error of the sample is returned as
permanent. -/
theorem describeLb_classifies_error_witness :
    (describeLb deniedEnv { handle := 1 } NewDescribeLoadBalancersRequest 0
      { state := initialState sampleRequest, calls := [] }).1 = some (Permanent denied) :=
  (describeLb_classifies_error deniedEnv { handle := 1 } NewDescribeLoadBalancersRequest 0
    { state := initialState sampleRequest, calls := [] } denied rfl).2.1
    "AuthFailure" "signature mismatch" "req-2" rfl (by decide)

/-- The text of an SDK error without a request id ends with its message. -/
theorem Error_without_request_id :
    (GoError.sdk "ClientError.NetworkError" "connection reset" "").Error =
      "[TencentCloudSDKError] Code=ClientError.NetworkError, Message=connection reset" := by
  decide

/-- C5: when `Read` gets as far as the listing call and the first call is
answered with an SDK error whose code is not in the retryable table, the
listing API is called exactly once, no backoff delay is slept, the state is
left as it was and the diagnostics gain the error with the text of that
error. -/
theorem Read_permanent_error_short_circuits (env : Env) (d : clbInstancesDataSource)
    (req : ReadRequest) (resp : ReadResponse) (code message requestId : String)
    (hreach : ReachesListing env d req resp)
    (hfirst : ∀ request,
      env.DescribeLoadBalancers (clientInUse env d req) request 0 =
        Except.error (GoError.sdk code message requestId))
    (hperm : env.isRetryableErrCode code = false) :
    (Read env d req resp).calls.length = 1 ∧
    (Read env d req resp).slept = [] ∧
    (Read env d req resp).resp.State = resp.State ∧
    (Read env d req resp).resp.Diagnostics =
      AddError (diagnosticsBeforeListing req resp)
        "[API ERROR] Failed to Describe Load Balancers"
        (GoError.sdk code message requestId).Error ∧
    HasError (Read env d req resp).resp.Diagnostics = true := by
  obtain ⟨_, request, _, hread⟩ := Read_of_reaches env d req resp hreach
  have hd := describeLb_error env (clientInUse env d req) request 0
    { state := initialState req, calls := [] } _ (hfirst request)
  have hnot : isRetryable env (GoError.sdk code message requestId) = false := hperm
  rw [hnot] at hd
  simp only [Bool.false_eq_true, if_false] at hd
  have hrun := Retry_permanent (describeLb env (clientInUse env d req) request)
    (grantedBackOffs env { NewExponentialBackOff with MaxElapsedTime := 30 * Second }) 0 _ _ _ hd
  rw [hread]
  unfold fetchAndCommit
  dsimp only
  rw [hrun]
  simp [HasError_AddError]

/-- Witness of C5: with the sample configuration and a listing API that
answers `AuthFailure`, one call is made and nothing is slept. -/
theorem Read_permanent_error_short_circuits_witness :
    (Read deniedEnv sampleSource sampleRequest freshResponse).calls.length = 1 ∧
    (Read deniedEnv sampleSource sampleRequest freshResponse).slept = [] ∧
    (Read deniedEnv sampleSource sampleRequest freshResponse).resp.Diagnostics =
      [{ severity := Severity.error
         summary := "[API ERROR] Failed to Describe Load Balancers"
         detail := "[TencentCloudSDKError] Code=AuthFailure, Message=signature mismatch, RequestId=req-2" }] :=
  have h := Read_permanent_error_short_circuits deniedEnv sampleSource sampleRequest
    freshResponse "AuthFailure" "signature mismatch" "req-2"
    (sample_reaches sampleRequest rfl rfl (by decide) deniedEnv (fun _ _ => rfl))
    (fun _ => rfl) (by decide)
  ⟨h.1, h.2.1, h.2.2.2.1⟩

/-- C3: when `Read` gets as far as the listing call and the call that
succeeds (after `N` retried errors, within the backoff budget) returns the
records `lbs`, the `load_balancers` list of the state has as many entries as
`lbs` and its entry at every index carries the identifier and the name of
the record at that index: response order is kept and nothing is dropped,
merged or sorted. -/
theorem Read_mirrors_response_order (env : Env) (d : clbInstancesDataSource)
    (req : ReadRequest) (resp : ReadResponse) (errs : Nat → GoError)
    (lbs : List LoadBalancer) (N : Nat)
    (hreach : ReachesListing env d req resp)
    (hfail : ∀ request j, j < N →
      env.DescribeLoadBalancers (clientInUse env d req) request j = Except.error (errs j))
    (hretry : ∀ j, j < N → isRetryable env (errs j) = true)
    (hok : ∀ request,
      env.DescribeLoadBalancers (clientInUse env d req) request N = Except.ok lbs)
    (hbudget : N ≤ (grantedBackOffs env { MaxElapsedTime := 30 * Second }).length) :
    ∃ state, (Read env d req resp).resp.State = some state ∧
      state.LoadBalancers.length = lbs.length ∧
      ∀ (i : Nat) (record : LoadBalancer), lbs[i]? = some record →
        ∃ entry : clbLoadBalancersDetail, state.LoadBalancers[i]? = some entry ∧
          entry.Id = TfString.known record.LoadBalancerId ∧
          entry.Name = TfString.known record.LoadBalancerName := by
  obtain ⟨_, request, _, hread⟩ := Read_of_reaches env d req resp hreach
  have hrun := fetchAndCommit_script env { client := clientInUse env d req } (initialState req)
    request { State := resp.State, Diagnostics := diagnosticsBeforeListing req resp } errs lbs N
    (fun j hj => hfail request j hj) hretry (hok request)
  rw [if_pos hbudget] at hrun
  refine ⟨_, by rw [hread, hrun], ?_, ?_⟩
  · simp [initialState]
  · intro i record hi
    refine ⟨clbDetail record, ?_, ?_, ?_⟩
    · simp [initialState, hi]
    · unfold clbDetail
      split <;> rfl
    · unfold clbDetail
      split <;> rfl

/-- Witness of C3: a response that lists the same record twice yields two
entries for it, in response order. -/
theorem Read_mirrors_response_order_witness :
    ∃ state, (Read sampleEnv sampleSource plainRequest freshResponse).resp.State = some state ∧
      state.LoadBalancers.length = [lbTest, lbBare, lbTest].length ∧
      ∀ (i : Nat) (record : LoadBalancer), [lbTest, lbBare, lbTest][i]? = some record →
        ∃ entry : clbLoadBalancersDetail, state.LoadBalancers[i]? = some entry ∧
          entry.Id = TfString.known record.LoadBalancerId ∧
          entry.Name = TfString.known record.LoadBalancerName :=
  Read_mirrors_response_order sampleEnv sampleSource plainRequest freshResponse
    (fun _ => throttled) [lbTest, lbBare, lbTest] 2
    (sample_reaches plainRequest rfl rfl (by decide) sampleEnv (fun _ _ => rfl))
    (fun _ j hj => by simp [sampleEnv, hj])
    (fun _ _ => (by decide : isRetryable sampleEnv throttled = true))
    (fun _ => rfl)
    (by decide)

/-- C1: when `Read` gets as far as the listing call, it sends at least one
request, and every request it sends has all fields at their default except
the four filters, which follow the configuration: `LoadBalancerName` is the
name when the name is known and unset otherwise; `LoadBalancerIds` is the
one-element list of the identifier when the identifier is known and unset
otherwise; `Filters` is set exactly when the tag map is known; `MasterZone`
is set exactly when the zone override is a non-empty string, and then is the
zone identifier the lookup resolved. -/
theorem Read_request_carries_exactly_supplied_filters (env : Env)
    (d : clbInstancesDataSource) (req : ReadRequest) (resp : ReadResponse)
    (hreach : ReachesListing env d req resp) :
    (Read env d req resp).calls ≠ [] ∧
    ∀ request ∈ (Read env d req resp).calls,
      request =
        { NewDescribeLoadBalancersRequest with
          LoadBalancerName := request.LoadBalancerName
          LoadBalancerIds := request.LoadBalancerIds
          Filters := request.Filters
          MasterZone := request.MasterZone } ∧
      request.LoadBalancerName = req.Config.plan.Name.knownValue ∧
      request.LoadBalancerIds = req.Config.plan.Id.knownValue.map (fun id => [id]) ∧
      (request.Filters.isSome = true ↔ ∃ elements, req.Config.plan.Tags = TfMap.known elements) ∧
      (request.MasterZone.isSome = true ↔ zoneOf req ≠ "") ∧
      (zoneOf req ≠ "" → ∃ zoneId,
        env.getZoneId (clientInUse env d req) (zoneOf req) = Except.ok zoneId ∧
        request.MasterZone = some zoneId) := by
  obtain ⟨built, n, ⟨hfields, htags, hzone⟩, hcalls⟩ := Read_calls_of_reaches env d req resp hreach
  rw [hcalls]
  refine ⟨by simp [List.replicate_succ], ?_⟩
  intro request hmem
  have hreq : request = built := (List.mem_replicate.mp hmem).2
  subst hreq
  have hname : request.LoadBalancerName = req.Config.plan.Name.knownValue := by
    rw [hfields]
  have hids : request.LoadBalancerIds = req.Config.plan.Id.knownValue.map (fun id => [id]) := by
    rw [hfields]
  refine ⟨?_, hname, hids, ?_, ?_, ?_⟩
  · rw [hname, hids]
    exact hfields
  · cases hT : req.Config.plan.Tags with
    | known es =>
      rw [hT] at htags
      simp [htags.1]
    | null =>
      rw [hT] at htags
      simp only at htags
      simp [htags]
    | unknown =>
      rw [hT] at htags
      simp only at htags
      simp [htags]
  · by_cases hz : zoneOf req = ""
    · rw [if_pos hz] at hzone
      simp [hzone, hz]
    · rw [if_neg hz] at hzone
      obtain ⟨zoneId, _, hm⟩ := hzone
      simp [hm, hz]
  · intro hz
    rw [if_neg hz] at hzone
    exact hzone

/-- Witness of C1: for the sample configuration (name `lb-test`, one tag, no
identifier, no zone) every request sent carries the name and the tag filter
and nothing else. -/
theorem Read_request_carries_exactly_supplied_filters_witness :
    (Read sampleEnv sampleSource sampleRequest freshResponse).calls ≠ [] ∧
    ∀ request ∈ (Read sampleEnv sampleSource sampleRequest freshResponse).calls,
      request.LoadBalancerName = some "lb-test" ∧ request.LoadBalancerIds = none ∧
      request.Filters.isSome = true ∧ request.MasterZone.isSome = false :=
  have h := Read_request_carries_exactly_supplied_filters sampleEnv sampleSource sampleRequest
    freshResponse (sample_reaches sampleRequest rfl rfl (by decide) sampleEnv (fun _ _ => rfl))
  ⟨h.1, fun request hmem =>
    have hr := h.2 request hmem
    ⟨hr.2.1, hr.2.2.1, hr.2.2.2.1.mpr ⟨_, rfl⟩, by
      have hz := hr.2.2.2.2.1
      cases hm : request.MasterZone.isSome with
      | false => rfl
      | true => exact absurd rfl (hz.mp hm)⟩⟩

/-- C9: when `Read` gets as far as the listing call and the tag map is known
with the elements `elements`, every request sent has its `Filters` set to a
list with one filter per element: the list is as long as the map, and for
every enumeration `entries` of the map's (key, value) pairs it is a
permutation of the filters with `Name = "tag:" ++ key` and `Values = [value]`
over `entries`. -/
theorem Read_builds_one_filter_per_tag (env : Env) (d : clbInstancesDataSource)
    (req : ReadRequest) (resp : ReadResponse) (elements : List (String × TfString))
    (hreach : ReachesListing env d req resp)
    (htags : req.Config.plan.Tags = TfMap.known elements) :
    (Read env d req resp).calls ≠ [] ∧
    ∀ request ∈ (Read env d req resp).calls,
      ∃ filters : List Filter, request.Filters = some filters ∧
        filters.length = elements.length ∧
        ∀ entries : List (String × String),
          List.Perm entries (elements.map (fun kv => (kv.1, kv.2.ValueString))) →
          List.Perm filters
            (entries.map (fun kv => ({ Name := "tag:" ++ kv.1, Values := [kv.2] } : Filter))) := by
  obtain ⟨built, n, ⟨_, hfil, _⟩, hcalls⟩ := Read_calls_of_reaches env d req resp hreach
  rw [hcalls]
  refine ⟨by simp [List.replicate_succ], ?_⟩
  intro request hmem
  have hreq : request = built := (List.mem_replicate.mp hmem).2
  subst hreq
  rw [htags] at hfil
  refine ⟨_, hfil.1, ?_, ?_⟩
  · rw [filterList_eq_map]
    simp
  · intro entries hperm
    rw [filterList_eq_map]
    exact (hperm.map _).symm

/-- Witness of C9: the tag map `env` = `prod` yields the single filter
`tag:env` = [`prod`], and a known empty tag map yields a set, empty list. -/
theorem Read_builds_one_filter_per_tag_witness :
    (∀ request ∈ (Read sampleEnv sampleSource sampleRequest freshResponse).calls,
      request.Filters = some [{ Name := "tag:env", Values := ["prod"] }]) ∧
    (∀ request ∈ (Read sampleEnv sampleSource emptyTagsRequest freshResponse).calls,
      request.Filters = some []) :=
  ⟨fun request hmem => by
      obtain ⟨filters, hset, _, hperm⟩ :=
        (Read_builds_one_filter_per_tag sampleEnv sampleSource sampleRequest freshResponse
          [("env", TfString.known "prod")]
          (sample_reaches sampleRequest rfl rfl (by decide) sampleEnv (fun _ _ => rfl))
          rfl).2 request hmem
      have h1 := hperm [("env", "prod")] (List.Perm.refl _)
      rw [hset, List.perm_singleton.mp h1]
      rfl,
    fun request hmem => by
      obtain ⟨filters, hset, hlen, _⟩ :=
        (Read_builds_one_filter_per_tag sampleEnv sampleSource emptyTagsRequest freshResponse []
          (sample_reaches emptyTagsRequest rfl rfl (by decide) sampleEnv (fun _ _ => rfl))
          rfl).2 request hmem
      rw [hset, List.length_eq_zero.mp hlen]⟩

/-- C2, counterexample: the listing API returns a record whose tag list is
(`env`, `a`), (`env`, `b`); the tag map `Read` emits for it is the single
entry `env` = `b`, so the pair (`env`, `a`) of the record is not in the map. -/
theorem Read_repeated_tag_key_drops_pair :
    (Read oddEnv sampleSource plainRequest freshResponse).resp.State.map
        (fun state => state.LoadBalancers.map (fun entry => entry.Tags)) =
      some [TfMap.known [("env", TfString.known "b")], TfMap.null] ∧
    ({ TagKey := "env", TagValue := "a" } : TagInfo) ∈ lbRepeatedKey.Tags ∧
    ("env", TfString.known "a") ∉ (clbDetail lbRepeatedKey).Tags.Elements := by
  decide

/-- C2, amended: a record with zero tags is mapped to the null tag map; a
record with one or more tags is mapped to a known (non-null) map with one
entry per distinct tag key, in which every entry is a (TagKey, TagValue)
pair of the record, every key of the record is present, and the value of a
key is the value of the last tag of the record with that key; when the tag
keys of the record are pairwise distinct, every pair of the record is in the
map. -/
theorem clbDetail_tags_keep_last_value_per_key (lbSet : LoadBalancer) :
    (lbSet.Tags = [] → (clbDetail lbSet).Tags = TfMap.null) ∧
    (lbSet.Tags ≠ [] → ∃ tagMap : List (String × TfString),
      (clbDetail lbSet).Tags = TfMap.known tagMap ∧
      (tagMap.map Prod.fst).Nodup ∧
      (∀ k v, (k, v) ∈ tagMap →
        ∃ t ∈ lbSet.Tags, t.TagKey = k ∧ TfString.known t.TagValue = v) ∧
      (∀ t ∈ lbSet.Tags, ∃ v, (t.TagKey, v) ∈ tagMap) ∧
      (∀ k v, (k, v) ∈ tagMap ↔
        (lbSet.Tags.reverse.find? (fun t => decide (t.TagKey = k))).map
          (fun t => TfString.known t.TagValue) = some v) ∧
      ((lbSet.Tags.map (fun t => t.TagKey)).Nodup →
        ∀ t ∈ lbSet.Tags, (t.TagKey, TfString.known t.TagValue) ∈ tagMap)) := by
  constructor
  · intro h
    simp [clbDetail, h]
  · intro h
    have hlen : ¬ lbSet.Tags.length < 1 := by
      cases hT : lbSet.Tags with
      | nil => exact absurd hT h
      | cons t rest => simp
    obtain ⟨hnodup, hmem⟩ := clbTagMap_spec lbSet.Tags
    have hpair : ∀ k v, (k, v) ∈ clbTagMap lbSet.Tags →
        ∃ t ∈ lbSet.Tags, t.TagKey = k ∧ TfString.known t.TagValue = v := by
      intro k v hkv
      have hfind := (hmem k v).mp hkv
      cases hf : lbSet.Tags.reverse.find? (fun t => decide (t.TagKey = k)) with
      | none => simp [hf] at hfind
      | some t =>
        rw [hf] at hfind
        have hin : t ∈ lbSet.Tags := List.mem_reverse.mp (List.mem_of_find?_eq_some hf)
        have hkey : t.TagKey = k := by simpa using List.find?_some hf
        exact ⟨t, hin, hkey, by simpa using hfind⟩
    have hpresent : ∀ t ∈ lbSet.Tags, ∃ v, (t.TagKey, v) ∈ clbTagMap lbSet.Tags := by
      intro t ht
      cases hf : lbSet.Tags.reverse.find? (fun u => decide (u.TagKey = t.TagKey)) with
      | none =>
        have hnone := List.find?_eq_none.mp hf t (List.mem_reverse.mpr ht)
        simp at hnone
      | some u =>
        exact ⟨TfString.known u.TagValue, (hmem _ _).mpr (by rw [hf]; rfl)⟩
    refine ⟨clbTagMap lbSet.Tags, by simp [clbDetail, hlen], hnodup, hpair, hpresent, hmem, ?_⟩
    intro hdistinct t ht
    obtain ⟨v, hv⟩ := hpresent t ht
    obtain ⟨u, hu, hkey, hval⟩ := hpair _ _ hv
    have hut : u = t := List.inj_on_of_nodup_map hdistinct hu ht hkey
    subst hut
    rw [hval]
    exact hv

/-- Witness of C2, amended: the record of the example of section 8 is mapped
to a known map that holds its pair `env` = `prod`. -/
theorem clbDetail_tags_keep_last_value_per_key_witness :
    ∃ tagMap : List (String × TfString), (clbDetail lbTest).Tags = TfMap.known tagMap ∧
      ("env", TfString.known "prod") ∈ tagMap :=
  have h := (clbDetail_tags_keep_last_value_per_key lbTest).2 (by decide)
  h.elim fun tagMap hm =>
    ⟨tagMap, hm.1, hm.2.2.2.2.2 (by decide) { TagKey := "env", TagValue := "prod" } (by decide)⟩

/-- C10, counterexample: the listing API returns a record whose
`LoadBalancerId` and `LoadBalancerName` are empty strings, and `Read` emits
a record whose identifier and name are the empty string. -/
theorem Read_emits_empty_identifier_and_name :
    ∃ state, (Read oddEnv sampleSource plainRequest freshResponse).resp.State = some state ∧
      ∃ entry ∈ state.LoadBalancers, entry.Id = TfString.known "" ∧ entry.Name = TfString.known "" :=
  ⟨_, rfl, { Id := TfString.known "", Name := TfString.known "", Tags := TfMap.null },
    by decide, rfl, rfl⟩

/-- C10, amended: every record `Read` emits in `load_balancers` carries,
verbatim and as known strings, the identifier and the name of a record of
the listing response it committed; so an emitted identifier (or name) is
empty exactly when the one of the API record is. -/
theorem Read_copies_identifier_and_name (env : Env) (d : clbInstancesDataSource)
    (req : ReadRequest) (resp : ReadResponse) (state : clbInstancesDataSourceModel)
    (hfresh : resp.State = none)
    (hset : (Read env d req resp).resp.State = some state) :
    ∀ entry ∈ state.LoadBalancers,
      ∃ request ∈ (Read env d req resp).calls, ∃ lbs,
        env.DescribeLoadBalancers (clientInUse env d req) request
          ((Read env d req resp).calls.length - 1) = Except.ok lbs ∧
        ∃ record ∈ lbs,
          entry.Id = TfString.known record.LoadBalancerId ∧
          entry.Name = TfString.known record.LoadBalancerName ∧
          (entry.Id.ValueString = "" ↔ record.LoadBalancerId = "") ∧
          (entry.Name.ValueString = "" ↔ record.LoadBalancerName = "") := by
  rcases Read_outcome env d req resp with ⟨hs, _, _⟩ | ⟨_, _, _, request, lbs, hne, hall, hapi, hst⟩
  · rw [hs, hfresh] at hset
    exact absurd hset (by simp)
  · rw [hst] at hset
    have hstate := Option.some.inj hset
    subst hstate
    intro entry hentry
    obtain ⟨record, hrec, hmap⟩ := List.mem_map.mp hentry
    obtain ⟨r0, hr0⟩ := List.exists_mem_of_ne_nil _ hne
    have hreq : r0 = request := hall r0 hr0
    subst hreq
    obtain ⟨hid, hname⟩ := clbDetail_Id_Name record
    rw [hmap] at hid hname
    refine ⟨r0, hr0, lbs, hapi, record, hrec, hid, hname, ?_, ?_⟩
    · rw [hid, ValueString_known]
    · rw [hname, ValueString_known]

/-- Witness of C10, amended: after the sample run the emitted record of the
bare load balancer stems from a record of the response, with its identifier
and name. -/
theorem Read_copies_identifier_and_name_witness :
    ∃ request ∈ (Read sampleEnv sampleSource plainRequest freshResponse).calls, ∃ lbs,
      sampleEnv.DescribeLoadBalancers (clientInUse sampleEnv sampleSource plainRequest) request
        ((Read sampleEnv sampleSource plainRequest freshResponse).calls.length - 1)
          = Except.ok lbs ∧
      ∃ record ∈ lbs,
        (clbDetail lbBare).Id = TfString.known record.LoadBalancerId ∧
        (clbDetail lbBare).Name = TfString.known record.LoadBalancerName ∧
        ((clbDetail lbBare).Id.ValueString = "" ↔ record.LoadBalancerId = "") ∧
        ((clbDetail lbBare).Name.ValueString = "" ↔ record.LoadBalancerName = "") :=
  Read_copies_identifier_and_name sampleEnv sampleSource plainRequest freshResponse
    { ClientConfig := none, Id := TfString.null, Name := TfString.null, Tags := TfMap.null
      LoadBalancers := [lbTest, lbBare, lbTest].map clbDetail } rfl (by decide)
    (clbDetail lbBare) (by decide)

/-- C8, counterexample: the resolver asks for a new client, the constructor
returns the handle 2, and after `Read` the data source stores the handle 2
instead of the default handle 1 it stored before. -/
theorem Read_replaces_stored_client :
    sampleSource.client = { handle := 1 } ∧
    (Read overrideEnv sampleSource sampleRequest freshResponse).d.client = { handle := 2 } ∧
    (Read overrideEnv sampleSource sampleRequest freshResponse).d.client ≠ sampleSource.client := by
  decide

/-- C8, amended: the stored client handle after `Read` equals the handle
before `Read` when the configuration fails to decode or the client resolver
asks for no new client; when the configuration decodes, the resolver asks
for a new client and its construction succeeds, the stored handle after
`Read` is the handle the client constructor returned, so it differs from
the handle before `Read` exactly when the constructor returned a different
handle. -/
theorem Read_stored_client_handle (env : Env) (d : clbInstancesDataSource)
    (req : ReadRequest) (resp : ReadResponse) :
    (HasError req.Config.diags = true → (Read env d req resp).d.client = d.client) ∧
    (needsNewClient env d req = false → (Read env d req resp).d.client = d.client) ∧
    (HasError req.Config.diags = false → needsNewClient env d req = true →
      (constructed env d req).2 = none →
      (Read env d req resp).d.client = (constructed env d req).1 ∧
      ((Read env d req resp).d.client ≠ d.client ↔ (constructed env d req).1 ≠ d.client)) := by
  have h := (Read_cases env d req resp).1
  refine ⟨?_, ?_, ?_⟩
  · intro hcfg
    rw [h, if_pos hcfg]
  · intro hneed
    rw [h]
    split
    · rfl
    · simp [clientInUse, hneed]
  · intro hcfg hneed _
    have hnew : (Read env d req resp).d.client = (constructed env d req).1 := by
      rw [h, hcfg]
      simp [clientInUse, hneed]
    exact ⟨hnew, by rw [hnew]⟩

/-- Witness of C8, amended: with the sample resolver, which asks for no new
client, the stored handle is still the default handle 1; with the resolver
that asks for one, it is the constructed handle 2. -/
theorem Read_stored_client_handle_witness :
    (Read sampleEnv sampleSource sampleRequest freshResponse).d.client = { handle := 1 } ∧
    (Read overrideEnv sampleSource sampleRequest freshResponse).d.client = { handle := 2 } :=
  ⟨(Read_stored_client_handle sampleEnv sampleSource sampleRequest freshResponse).2.1 rfl,
    ((Read_stored_client_handle overrideEnv sampleSource sampleRequest freshResponse).2.2
      rfl rfl rfl).1⟩

/-- C7: `Read` commits all or nothing. On every error path (the
configuration fails to decode; a needed client cannot be constructed; an
element of the tag map cannot be converted; the zone lookup fails; the last
listing call `Read` made was answered with an error, which is how a
permanent error and an exhausted retry budget end) the state of the response
is left as it was and the diagnostics hold an error. And in every run,
either that is the case or the state is set to the model whose
`load_balancers` are the mapped records of the whole response of a
successful listing call, so no partial result set is committed. -/
theorem Read_commits_all_or_nothing (env : Env) (d : clbInstancesDataSource)
    (req : ReadRequest) (resp : ReadResponse) :
    (HasError req.Config.diags = true →
      (Read env d req resp).resp.State = resp.State ∧
      HasError (Read env d req resp).resp.Diagnostics = true) ∧
    (needsNewClient env d req = true → (constructed env d req).2 ≠ none →
      (Read env d req resp).resp.State = resp.State ∧
      HasError (Read env d req resp).resp.Diagnostics = true) ∧
    ((∃ kv ∈ req.Config.plan.Tags.Elements, kv.2.isKnown = false) →
      (Read env d req resp).resp.State = resp.State ∧
      HasError (Read env d req resp).resp.Diagnostics = true) ∧
    (zoneOf req ≠ "" →
      (∃ e, env.getZoneId (clientInUse env d req) (zoneOf req) = Except.error e) →
      (Read env d req resp).resp.State = resp.State ∧
      HasError (Read env d req resp).resp.Diagnostics = true) ∧
    (∀ request ∈ (Read env d req resp).calls, ∀ e,
      env.DescribeLoadBalancers (clientInUse env d req) request
        ((Read env d req resp).calls.length - 1) = Except.error e →
      (Read env d req resp).resp.State = resp.State ∧
      HasError (Read env d req resp).resp.Diagnostics = true) ∧
    (((Read env d req resp).resp.State = resp.State ∧
        HasError (Read env d req resp).resp.Diagnostics = true) ∨
      ∃ request ∈ (Read env d req resp).calls, ∃ lbs,
        env.DescribeLoadBalancers (clientInUse env d req) request
          ((Read env d req resp).calls.length - 1) = Except.ok lbs ∧
        (Read env d req resp).resp.State =
          some { ClientConfig := none, Id := req.Config.plan.Id, Name := req.Config.plan.Name
                 Tags := req.Config.plan.Tags, LoadBalancers := lbs.map clbDetail }) := by
  rcases Read_outcome env d req resp with
    ⟨hs, he, _⟩ | ⟨⟨hcfg, _, hcons, htags, hzone⟩, _, _, request, lbs, hne, hall, hapi, hst⟩
  · exact ⟨fun _ => ⟨hs, he⟩, fun _ _ => ⟨hs, he⟩, fun _ => ⟨hs, he⟩, fun _ _ => ⟨hs, he⟩,
      fun _ _ _ _ => ⟨hs, he⟩, Or.inl ⟨hs, he⟩⟩
  · refine ⟨?_, ?_, ?_, ?_, ?_, Or.inr ?_⟩
    · intro h
      rw [hcfg] at h
      exact absurd h (by decide)
    · intro hneed hbad
      exact absurd (hcons hneed) hbad
    · rintro ⟨kv, hkv, hnot⟩
      rw [htags kv hkv] at hnot
      exact absurd hnot (by decide)
    · rintro hz ⟨e, he⟩
      obtain ⟨zoneId, hok⟩ := hzone hz
      rw [hok] at he
      exact absurd he (by simp)
    · intro r hr e hfail
      rw [hall r hr, hapi] at hfail
      exact absurd hfail (by simp)
    · obtain ⟨r0, hr0⟩ := List.exists_mem_of_ne_nil _ hne
      have hreq : r0 = request := hall r0 hr0
      subst hreq
      exact ⟨r0, hr0, lbs, hapi, hst⟩

/-- Witness of C7: a tag map with a null element stops `Read` before the
listing call, with the state left absent and an error recorded; and a
listing call answered with a permanent error does the same. -/
theorem Read_commits_all_or_nothing_witness :
    ((Read sampleEnv sampleSource nullTagRequest freshResponse).resp.State = none ∧
      HasError (Read sampleEnv sampleSource nullTagRequest freshResponse).resp.Diagnostics = true) ∧
    ((Read deniedEnv sampleSource sampleRequest freshResponse).resp.State = none ∧
      HasError (Read deniedEnv sampleSource sampleRequest freshResponse).resp.Diagnostics = true) :=
  ⟨(Read_commits_all_or_nothing sampleEnv sampleSource nullTagRequest freshResponse).2.2.1
      ⟨("env", TfString.null), by decide, rfl⟩,
    (Read_commits_all_or_nothing deniedEnv sampleSource sampleRequest freshResponse).2.2.2.2.1
      { NewDescribeLoadBalancersRequest with
        LoadBalancerName := some "lb-test"
        Filters := some [{ Name := "tag:env", Values := ["prod"] }] }
      (by decide) denied rfl⟩

/-- A run that exhausts the budget: with listing calls of twenty seconds the
second throttled call is the last, and `Read` reports the throttling error
with the state left absent. -/
theorem Read_exhausts_tight_budget :
    (Read tightEnv sampleSource sampleRequest freshResponse).resp.State = none ∧
    HasError (Read tightEnv sampleSource sampleRequest freshResponse).resp.Diagnostics = true ∧
    (Read tightEnv sampleSource sampleRequest freshResponse).calls.length = 2 := by
  decide

end Tencentcloud
